import Mathlib

/-!
Verification of the `steering` repository: a shallow embedding of the
entity/component store (`src/external/ECS.h`) and of the steering behaviors
(`src/src/System.h`, `src/src/Component.h`, `src/src/Transformation.h`),
together with theorems settling the specification claims.

Machine integers are modelled as `Nat` with explicit `% 2^32` / `% 2^64`
reductions where the C++ types (`uint32_t`, `uint64_t`) wrap; `float`
arithmetic is modelled over `ℝ` (exact real arithmetic, the usual
idealization of floating point).
-/

namespace ECS

/-! ### Entity identifier codec (`ecs::Entity`, ECS.h lines 56-91)

`Id` packs a 32-bit slot index (upper bits) and a 32-bit version (lower
bits) into one 64-bit handle.  `Index(-1) = 2^32 - 1` is the sentinel
index marking a removed slot. -/

/-- `static_cast<Index>(-1)`: the reserved sentinel slot index. -/
def IdxSentinel : Nat := 2 ^ 32 - 1

namespace Entity

/-- `Entity::NewId(index, version)`: `Id(index) << 32 | Id(version)`.
Both parameters are `uint32_t`, hence the `% 2^32` reductions. -/
def NewId (index version : Nat) : Nat :=
  (index % 2 ^ 32) * 2 ^ 32 + version % 2 ^ 32

/-- `Entity::GetIndex(id)`: `id >> 32`. -/
def GetIndex (id : Nat) : Nat := id / 2 ^ 32

/-- `Entity::GetVersion(id)`: `static_cast<Version>(id)` (lower 32 bits). -/
def GetVersion (id : Nat) : Nat := id % 2 ^ 32

/-- `Entity::IsValid(id)`: `(id >> 32) != static_cast<Index>(-1)`. -/
def IsValid (id : Nat) : Bool := GetIndex id != IdxSentinel

end Entity

/-! ### Component masks (`std::bitset<MAX_COMPONENTS>`) -/

/-- `ecs::MAX_COMPONENTS`. -/
def MAX_COMPONENTS : Nat := 64

/-- `ecs::MAX_ENTITIES`. -/
def MAX_ENTITIES : Nat := 1000000

/-- `mask.test(cid)` on a `std::bitset<64>` modelled as a `Nat`. -/
def maskTest (m cid : Nat) : Bool := m.testBit cid

/-- `mask.set(cid)`. -/
def maskSet (m cid : Nat) : Nat := m ||| (1 <<< cid)

/-- `mask.reset(cid)`: clear bit `cid`, keep the other 63 bits. -/
def maskReset (m cid : Nat) : Nat := m &&& ((2 ^ 64 - 1) ^^^ (1 <<< cid))

/-! ### Scene (`ecs::Scene`, ECS.h lines 155-268)

The entity table is a `std::vector<EntityPack>`, the freelist a
`std::vector<Entity::Index>` used as a stack at its back, and the pools a
`std::vector<std::unique_ptr<ComponentPool>>`.  A pool is raw slot-indexed
storage; we model it as `Option (List (Nat × Nat))` (`none` = null pointer,
a write placement-constructs `(slot, payload)` on top of the raw memory). -/

/-- `Scene::EntityPack`: default id is `Entity::Id(-1) = 2^64 - 1`, default
mask is the empty bitset. -/
structure EntityPack where
  id : Nat
  mask : Nat
  deriving Repr, DecidableEq

instance : Inhabited EntityPack := ⟨⟨2 ^ 64 - 1, 0⟩⟩

structure Scene where
  entities : List EntityPack
  freelist : List Nat
  pools : List (Option (List (Nat × Nat)))
  deriving Repr, DecidableEq

/-- The default-constructed scene. -/
def Scene.empty : Scene := ⟨[], [], []⟩

/-- `Scene::NewEntity` (ECS.h lines 170-180).  Reuses the *back* of the
freelist if nonempty (keeping the slot's stored version), otherwise appends
a fresh slot with version 0.  There is no capacity check of any kind. -/
def Scene.NewEntity (s : Scene) : Scene × Nat :=
  match s.freelist.getLast? with
  | some i =>
      let id := Entity.NewId i (Entity.GetVersion (s.entities.getD i default).id)
      ({ s with
          entities := s.entities.set i ⟨id, (s.entities.getD i default).mask⟩,
          freelist := s.freelist.dropLast }, id)
  | none =>
      let id := Entity.NewId s.entities.length 0
      ({ s with entities := s.entities ++ [⟨id, 0⟩] }, id)

/-- `Scene::RemoveEntity` (ECS.h lines 186-194).  Stores
`NewId(Index(-1), GetVersion(id) + 1)` (the `+ 1` wraps at `2^32`), resets
the mask and pushes the slot onto the freelist.  The argument id is trusted:
no staleness check is performed. -/
def Scene.RemoveEntity (s : Scene) (id : Nat) : Scene :=
  let i := Entity.GetIndex id
  { s with
      entities := s.entities.set i
        ⟨Entity.NewId IdxSentinel (Entity.GetVersion id + 1), 0⟩,
      freelist := s.freelist ++ [i] }

/-- `Scene::HasComponent<T>` (ECS.h lines 199-204): a mask test at the
slot addressed by the id's index, with no version validation. -/
def Scene.HasComponent (s : Scene) (id cid : Nat) : Bool :=
  maskTest (s.entities.getD (Entity.GetIndex id) default).mask cid

/-- `Scene::AddComponent<T>` (ECS.h lines 210-223): grows the pool vector to
`cid + MAX_COMPONENTS / 4` when `cid` is out of range, allocates the pool on
first use, placement-constructs the payload at the id's slot and sets the
mask bit.  No staleness or double-add check. -/
def Scene.AddComponent (s : Scene) (id cid payload : Nat) : Scene :=
  let i := Entity.GetIndex id
  let pools0 :=
    if s.pools.length ≤ cid then
      s.pools ++ List.replicate (cid + MAX_COMPONENTS / 4 - s.pools.length) none
    else s.pools
  let pools1 :=
    if pools0.getD cid none = none then pools0.set cid (some []) else pools0
  let pools2 :=
    pools1.set cid (some ((i, payload) :: (pools1.getD cid none).getD []))
  let p := s.entities.getD i default
  { s with
      pools := pools2,
      entities := s.entities.set i ⟨p.id, maskSet p.mask cid⟩ }

/-- `Scene::RemoveComponent<T>` (ECS.h lines 228-239).  Throws (modelled as
`none`) when the mask bit is unset, then when the stored identifier differs
from the argument; on success clears the mask bit only. -/
def Scene.RemoveComponent (s : Scene) (id cid : Nat) : Option Scene :=
  let i := Entity.GetIndex id
  if ¬ s.HasComponent id cid then none
  else if (s.entities.getD i default).id ≠ id then none
  else
    let p := s.entities.getD i default
    some { s with entities := s.entities.set i ⟨p.id, maskReset p.mask cid⟩ }

/-- `Scene::GetComponent<T>` (ECS.h lines 244-255).  Same two failure
conditions as removal; on success returns `pools_[cid]->Get(i)`, i.e. the
address of slot `i` in pool `cid`, modelled as the pair `(cid, i)`. -/
def Scene.GetComponent (s : Scene) (id cid : Nat) : Option (Nat × Nat) :=
  let i := Entity.GetIndex id
  if ¬ s.HasComponent id cid then none
  else if (s.entities.getD i default).id ≠ id then none
  else some (cid, i)

/-! ### SceneView (`ecs::SceneView`, ECS.h lines 274-343)

The constructor over component types `Ts` sets `all_ = true` when `Ts` is
empty and otherwise ORs the bit of every component id into `mask_`.
`begin()` scans forward from slot 0 past every slot failing
`mask_ == (mask_ & slotMask) && IsValid(slotId)`; `operator++` advances past
every slot failing `Iterator::IsValid`, which is
`IsValid(slotId) && (all_ || mask_ == (mask_ & slotMask))`. -/

/-- `mask_ == (mask_ & m)`: the requested mask is a subset of `m`. -/
def submask (req m : Nat) : Bool := req &&& m == req

/-- `SceneView::Iterator::IsValid` (ECS.h lines 310-313). -/
def iterValid (all : Bool) (req : Nat) (p : EntityPack) : Bool :=
  Entity.IsValid p.id && (all || submask req p.mask)

/-- The stopping condition of the skip loop in `SceneView::begin`
(ECS.h lines 327-331): subset test first, then validity. -/
def beginValid (req : Nat) (p : EntityPack) : Bool :=
  submask req p.mask && Entity.IsValid p.id

/-- The sequence of ids yielded by one full range-for over a `SceneView`
with requested mask `req` and flag `all`: `begin()` skips slots failing
`beginValid`; from the first hit onward, `operator++` yields exactly the
slots passing `iterValid`, in ascending slot order. -/
def viewIds (req : Nat) (all : Bool) : List EntityPack → List Nat
  | [] => []
  | p :: ps =>
      if beginValid req p then
        p.id :: (ps.filter (iterValid all req)).map EntityPack.id
      else viewIds req all ps

/-- The mask built by the `SceneView` constructor from the component ids of
the requested types (ECS.h lines 280-289). -/
def viewMask (cids : List Nat) : Nat :=
  cids.foldl (fun m c => maskSet m c) 0

/-- A full iteration of `SceneView<Ts...>` over a scene's entity table,
with `all_ = true` exactly when the type list is empty. -/
def sceneViewIds (cids : List Nat) (es : List EntityPack) : List Nat :=
  viewIds (viewMask cids) (cids.isEmpty) es

end ECS

namespace ECS

/-! ### SceneView iteration lemmas (claim C4) -/

theorem submask_zero (m : Nat) : submask 0 m = true := by
  simp [submask, Nat.zero_and]

/-- The view's match predicate, as the spec states it: the slot is live and
its mask is a superset of the requested mask. -/
def liveMatch (req : Nat) (p : EntityPack) : Bool :=
  Entity.IsValid p.id && submask req p.mask

theorem beginValid_eq_liveMatch (req : Nat) (p : EntityPack) :
    beginValid req p = liveMatch req p := by
  simp only [beginValid, liveMatch, Bool.and_comm]

theorem iterValid_eq_liveMatch (req : Nat) (all : Bool)
    (h : all = true → req = 0) (p : EntityPack) :
    iterValid all req p = liveMatch req p := by
  cases all with
  | false => simp [iterValid, liveMatch]
  | true => simp [iterValid, liveMatch, h rfl, submask_zero]

/-- One full `SceneView` iteration yields exactly the ids of the slots
passing the live-and-superset predicate, in table (ascending slot) order,
provided `all_` is only set together with an empty mask — which is how the
constructor always sets them. -/
theorem viewIds_eq_filter (req : Nat) (all : Bool) (h : all = true → req = 0)
    (es : List EntityPack) :
    viewIds req all es = (es.filter (liveMatch req)).map EntityPack.id := by
  induction es with
  | nil => rfl
  | cons p ps ih =>
    by_cases hb : beginValid req p
    · have hlm : liveMatch req p = true := by
        rw [← beginValid_eq_liveMatch]; exact hb
      rw [viewIds, if_pos hb, List.filter_cons, if_pos hlm, List.map_cons]
      congr 1
      congr 1
      apply List.filter_congr
      intro q _
      exact iterValid_eq_liveMatch req all h q
    · have hlm : ¬ liveMatch req p = true := by
        rw [← beginValid_eq_liveMatch]; exact hb
      rw [viewIds, if_neg hb, List.filter_cons, if_neg hlm]
      exact ih

theorem viewMask_nil : viewMask [] = 0 := rfl

/-- **C4** (confirmed).  For every entity-table state and every capability
set (list of component ids), iterating a `SceneView` yields exactly the
entities whose stored identifier is valid and whose mask is a superset of
the requested mask, each once, in ascending slot order; with no requested
types it yields exactly the live entities in that same order. -/
theorem C4_sceneView_yields_live_superset_in_order :
    (∀ (cids : List Nat) (es : List EntityPack),
      sceneViewIds cids es =
        (es.filter (fun p => Entity.IsValid p.id &&
          submask (viewMask cids) p.mask)).map EntityPack.id) ∧
    (∀ es : List EntityPack,
      sceneViewIds [] es =
        (es.filter (fun p => Entity.IsValid p.id)).map EntityPack.id) := by
  constructor
  · intro cids es
    exact viewIds_eq_filter (viewMask cids) cids.isEmpty
      (fun hall => by
        rw [List.isEmpty_iff] at hall
        rw [hall, viewMask_nil]) es
  · intro es
    have := viewIds_eq_filter (viewMask []) true (fun _ => rfl) es
    simp only [sceneViewIds, List.isEmpty_nil, viewMask_nil] at this ⊢
    rw [this]
    congr 1
    apply List.filter_congr
    intro q _
    simp [liveMatch, submask_zero]

end ECS

namespace ECS

/-! ### Mask bit lemmas (claim C5) -/

theorem maskTest_maskReset_self (m c : Nat) (hc : c < 64) :
    maskTest (maskReset m c) c = false := by
  simp only [maskTest, maskReset, Nat.testBit_and, Nat.testBit_xor,
    Nat.shiftLeft_eq, one_mul, Nat.testBit_two_pow, Nat.testBit_two_pow_sub_one]
  simp [hc]

theorem maskTest_maskReset_other (m c c' : Nat) (hc' : c' < 64) (hne : c' ≠ c) :
    maskTest (maskReset m c) c' = maskTest m c' := by
  simp only [maskTest, maskReset, Nat.testBit_and, Nat.testBit_xor,
    Nat.shiftLeft_eq, one_mul, Nat.testBit_two_pow, Nat.testBit_two_pow_sub_one]
  rw [decide_eq_true hc', decide_eq_false (fun h => hne h.symm)]
  cases m.testBit c' <;> rfl

/-- The entity pack written back by a successful component removal: same
identifier, mask bit `cid` cleared. -/
def clearedPack (s : Scene) (id cid : Nat) : EntityPack :=
  EntityPack.mk (s.entities.getD (Entity.GetIndex id) default).id
    (maskReset (s.entities.getD (Entity.GetIndex id) default).mask cid)

/-- The scene produced by a successful `RemoveComponent`. -/
def removedScene (s : Scene) (id cid : Nat) : Scene :=
  { s with entities := s.entities.set (Entity.GetIndex id) (clearedPack s id cid) }

/-- `RemoveComponent` restated as one guarded conditional: it succeeds iff
the mask bit is set and the stored identifier matches, and then clears
exactly that mask bit. -/
theorem removeComponent_spec (s : Scene) (id cid : Nat) :
    s.RemoveComponent id cid =
      (if s.HasComponent id cid ∧
          (s.entities.getD (Entity.GetIndex id) default).id = id
       then some (removedScene s id cid)
       else none) := by
  simp only [Scene.RemoveComponent, removedScene, clearedPack]
  by_cases h1 : s.HasComponent id cid
  · by_cases h2 : (s.entities.getD (Entity.GetIndex id) default).id = id
    · rw [if_neg (not_not_intro h1), if_neg (not_not_intro h2), if_pos ⟨h1, h2⟩]
    · rw [if_neg (not_not_intro h1), if_pos h2, if_neg (fun hc => h2 hc.2)]
  · rw [if_pos h1, if_neg (fun hc => h1 hc.1)]

/-- `GetComponent` restated the same way: the same two failure conditions,
and on success the address of slot `index-of(id)` in pool `cid`. -/
theorem getComponent_spec (s : Scene) (id cid : Nat) :
    s.GetComponent id cid =
      (if s.HasComponent id cid ∧
          (s.entities.getD (Entity.GetIndex id) default).id = id
       then some (cid, Entity.GetIndex id)
       else none) := by
  simp only [Scene.GetComponent]
  by_cases h1 : s.HasComponent id cid
  · by_cases h2 : (s.entities.getD (Entity.GetIndex id) default).id = id
    · rw [if_neg (not_not_intro h1), if_neg (not_not_intro h2), if_pos ⟨h1, h2⟩]
    · rw [if_neg (not_not_intro h1), if_pos h2, if_neg (fun hc => h2 hc.2)]
  · rw [if_pos h1, if_neg (fun hc => h1 hc.1)]

/-- **C5** (confirmed).  `RemoveComponent` and `GetComponent` fail exactly
when the slot's stored identifier differs from the argument id (stale
handle) or the slot's mask bit for the component is unset (missing
component); a successful removal clears exactly that one mask bit, leaving
the slot's identifier, every other mask bit, every other slot, the
freelist and all pool contents unchanged. -/
theorem C5_remove_get_component_contract (s : Scene) (id cid : Nat)
    (hin : Entity.GetIndex id < s.entities.length) (hcid : cid < 64) :
    (s.RemoveComponent id cid = none ↔
      ((s.entities.getD (Entity.GetIndex id) default).id ≠ id ∨
       maskTest (s.entities.getD (Entity.GetIndex id) default).mask cid = false)) ∧
    (s.GetComponent id cid = none ↔
      ((s.entities.getD (Entity.GetIndex id) default).id ≠ id ∨
       maskTest (s.entities.getD (Entity.GetIndex id) default).mask cid = false)) ∧
    (∀ s', s.RemoveComponent id cid = some s' →
      s'.entities = s.entities.set (Entity.GetIndex id) (clearedPack s id cid) ∧
      s'.freelist = s.freelist ∧
      s'.pools = s.pools ∧
      (s'.entities.getD (Entity.GetIndex id) default).id =
        (s.entities.getD (Entity.GetIndex id) default).id ∧
      maskTest (s'.entities.getD (Entity.GetIndex id) default).mask cid = false ∧
      (∀ c, c < 64 → c ≠ cid →
        maskTest (s'.entities.getD (Entity.GetIndex id) default).mask c =
        maskTest (s.entities.getD (Entity.GetIndex id) default).mask c) ∧
      (∀ j, j ≠ Entity.GetIndex id →
        s'.entities.getD j default = s.entities.getD j default)) := by
  have hcond : ((s.entities.getD (Entity.GetIndex id) default).id ≠ id ∨
      maskTest (s.entities.getD (Entity.GetIndex id) default).mask cid = false) ↔
      ¬ (s.HasComponent id cid ∧
         (s.entities.getD (Entity.GetIndex id) default).id = id) := by
    constructor
    · rintro (h | h) ⟨h1, h2⟩
      · exact h h2
      · have : s.HasComponent id cid = false := h
        rw [h1] at this
        simp at this
    · intro h
      by_cases h2 : (s.entities.getD (Entity.GetIndex id) default).id = id
      · refine Or.inr ?_
        have h1 : ¬ s.HasComponent id cid = true := fun h1 => h ⟨h1, h2⟩
        exact ((Bool.not_eq_true (s.HasComponent id cid)) ▸ h1 :
          s.HasComponent id cid = false)
      · exact Or.inl h2
  refine ⟨?_, ?_, ?_⟩
  · rw [removeComponent_spec]
    by_cases h : (s.HasComponent id cid ∧
        (s.entities.getD (Entity.GetIndex id) default).id = id)
    · rw [if_pos h]
      exact iff_of_false (by simp) (fun hd => (hcond.1 hd) h)
    · rw [if_neg h]
      exact iff_of_true rfl (hcond.2 h)
  · rw [getComponent_spec]
    by_cases h : (s.HasComponent id cid ∧
        (s.entities.getD (Entity.GetIndex id) default).id = id)
    · rw [if_pos h]
      exact iff_of_false (by simp) (fun hd => (hcond.1 hd) h)
    · rw [if_neg h]
      exact iff_of_true rfl (hcond.2 h)
  · intro s' hs'
    rw [removeComponent_spec] at hs'
    by_cases h : (s.HasComponent id cid ∧
        (s.entities.getD (Entity.GetIndex id) default).id = id)
    · rw [if_pos h, Option.some.injEq] at hs'
      subst hs'
      have hset : ((s.entities.set (Entity.GetIndex id)
          (clearedPack s id cid)).getD (Entity.GetIndex id) default) =
          clearedPack s id cid := by
        rw [List.getD_eq_getElem?_getD, List.getElem?_set_self hin, Option.getD_some]
      refine ⟨rfl, rfl, rfl, ?_, ?_, ?_, ?_⟩
      · simp only [removedScene]
        rw [hset]
        rfl
      · simp only [removedScene]
        rw [hset]
        exact maskTest_maskReset_self _ cid hcid
      · intro c hc hne
        simp only [removedScene]
        rw [hset]
        exact maskTest_maskReset_other _ cid c hc hne
      · intro j hj
        simp only [removedScene, List.getD_eq_getElem?_getD]
        rw [List.getElem?_set_ne (fun he => hj he.symm)]
    · rw [if_neg h] at hs'
      exact absurd hs' (by simp)

/-- Witness for C5: a one-slot scene whose entity carries component 3; the
hypotheses hold there and the failure-condition characterization follows by
applying the theorem. -/
theorem C5_witness :
    Entity.GetIndex 0 < (Scene.mk [⟨0, 8⟩] [] []).entities.length ∧
    3 < 64 ∧
    ((Scene.mk [⟨0, 8⟩] [] []).RemoveComponent 0 3 = none ↔
      (((Scene.mk [⟨0, 8⟩] [] []).entities.getD (Entity.GetIndex 0) default).id ≠ 0 ∨
       maskTest ((Scene.mk [⟨0, 8⟩] [] []).entities.getD
         (Entity.GetIndex 0) default).mask 3 = false)) := by
  refine ⟨by decide, by decide, ?_⟩
  exact (C5_remove_get_component_contract (Scene.mk [⟨0, 8⟩] [] []) 0 3
    (by decide) (by decide)).1

end ECS

namespace ECS

/-! ### Claim C2: `NewEntity` never checks `MAX_ENTITIES` -/

/-- With an empty freelist, `NewEntity` always takes the append branch:
no capacity comparison guards it. -/
theorem newEntity_appends_of_freelist_nil (s : Scene) (h : s.freelist = []) :
    s.NewEntity.1.entities =
      s.entities ++ [EntityPack.mk (Entity.NewId s.entities.length 0) 0] := by
  have h2 : s.freelist.getLast? = none := by rw [h]; rfl
  unfold Scene.NewEntity
  rw [h2]

/-- A scene already filled to `MAX_ENTITIES` live entities, freelist empty. -/
def fullScene : Scene :=
  Scene.mk (List.replicate MAX_ENTITIES (EntityPack.mk 0 0)) [] []

theorem fullScene_newEntity_entities :
    fullScene.NewEntity.1.entities =
      fullScene.entities ++
        [EntityPack.mk (Entity.NewId fullScene.entities.length 0) 0] :=
  newEntity_appends_of_freelist_nil fullScene rfl

theorem fullScene_entities_length : fullScene.entities.length = MAX_ENTITIES := by
  have h : fullScene.entities = List.replicate MAX_ENTITIES (EntityPack.mk 0 0) := rfl
  rw [h, List.length_replicate]

/-- **C2** (code_bug).  `Scene::NewEntity` contains no capacity check: on a
scene already holding `MAX_ENTITIES` entities and an empty freelist it
silently appends a 1,000,001-th slot instead of failing with
`CapacityExceeded`, even though every `ComponentPool` is allocated for
exactly `MAX_ENTITIES` slots, so the new slot's pool accesses are out of
bounds. -/
theorem C2_newEntity_exceeds_capacity_silently :
    fullScene.NewEntity.1.entities.length = MAX_ENTITIES + 1 ∧
    MAX_ENTITIES < fullScene.NewEntity.1.entities.length := by
  have h : fullScene.NewEntity.1.entities.length = MAX_ENTITIES + 1 := by
    rw [fullScene_newEntity_entities]
    rw [List.length_append]
    rw [fullScene_entities_length]
    rw [List.length_singleton]
  exact ⟨h, by rw [h]; omega⟩

/-! ### Operation traces over the store (claims C6, C7)

A trace is a list of store operations executed against a scene.  The
contract side conditions (`wfOp`) express exactly what the spec requires of
callers: `destroy-entity` is called only with the slot's current, valid
identifier (spec section 4.4), component operations address an existing
slot with a registered type id, and the entity count stays below the index
sentinel (the regime in which the 32-bit index cast in `NewEntity` does not
truncate; the spec fixes the maximum at 1,000,000, far below it). -/

inductive Op where
  | newE : Op
  | removeE (id : Nat) : Op
  | addC (id cid payload : Nat) : Op
  | removeC (id cid : Nat) : Op
  deriving Repr, DecidableEq

/-- Execute one operation, exactly as `ecs::Scene` does (a failed
component removal throws, leaving the scene as it was). -/
def step (s : Scene) : Op → Scene
  | .newE => s.NewEntity.1
  | .removeE id => s.RemoveEntity id
  | .addC id cid payload => s.AddComponent id cid payload
  | .removeC id cid => (s.RemoveComponent id cid).getD s

/-- The caller-contract side conditions for one operation. -/
def wfOp (s : Scene) : Op → Bool
  | .newE => decide (s.entities.length < IdxSentinel)
  | .removeE id => Entity.IsValid id &&
      decide (Entity.GetIndex id < s.entities.length) &&
      ((s.entities.getD (Entity.GetIndex id) default).id == id)
  | .addC id cid _ =>
      decide (Entity.GetIndex id < s.entities.length) && decide (cid < 64)
  | .removeC id cid =>
      decide (Entity.GetIndex id < s.entities.length) && decide (cid < 64)

/-- Run a trace. -/
def run (s : Scene) : List Op → Scene
  | [] => s
  | op :: ops => run (step s op) ops

/-- A trace is well-formed from `s` when every operation satisfies its
side conditions in the state it executes in. -/
def wfRun (s : Scene) : List Op → Bool
  | [] => true
  | op :: ops => wfOp s op && wfRun (step s op) ops

theorem run_append (s : Scene) (a b : List Op) :
    run s (a ++ b) = run (run s a) b := by
  induction a generalizing s with
  | nil => rfl
  | cons op ops ih =>
      simp only [List.cons_append, run]
      exact ih _

theorem wfRun_append (s : Scene) (a b : List Op) :
    wfRun s (a ++ b) = (wfRun s a && wfRun (run s a) b) := by
  induction a generalizing s with
  | nil => simp [wfRun, run]
  | cons op ops ih =>
      show (wfOp s op && wfRun (step s op) (ops ++ b)) = _
      rw [ih]
      show _ = ((wfOp s op && wfRun (step s op) ops) && wfRun (run (step s op) ops) b)
      rw [Bool.and_assoc]

/-! ### List and identifier helper lemmas -/

theorem getD_set_self (l : List EntityPack) (i : Nat) (a : EntityPack)
    (h : i < l.length) : (l.set i a).getD i default = a := by
  rw [List.getD_eq_getElem?_getD, List.getElem?_set_self h, Option.getD_some]

theorem getD_set_ne (l : List EntityPack) (i j : Nat) (a : EntityPack)
    (h : i ≠ j) : (l.set i a).getD j default = l.getD j default := by
  rw [List.getD_eq_getElem?_getD, List.getElem?_set_ne h,
    ← List.getD_eq_getElem?_getD]

theorem getD_append_left (l l2 : List EntityPack) (i : Nat)
    (h : i < l.length) : (l ++ l2).getD i default = l.getD i default := by
  rw [List.getD_eq_getElem?_getD, List.getElem?_append_left h,
    ← List.getD_eq_getElem?_getD]

theorem getD_append_self (l : List EntityPack) (a : EntityPack) :
    (l ++ [a]).getD l.length default = a := by
  rw [List.getD_eq_getElem?_getD]
  rw [List.getElem?_append_right (le_refl _)]
  simp

theorem Entity.GetIndex_NewId (i v : Nat) (hi : i < 2 ^ 32) :
    Entity.GetIndex (Entity.NewId i v) = i := by
  unfold Entity.GetIndex Entity.NewId
  rw [Nat.mod_eq_of_lt hi, mul_comm, Nat.mul_add_div (by norm_num)]
  rw [Nat.div_eq_of_lt (Nat.mod_lt _ (by norm_num))]
  omega

theorem Entity.GetVersion_NewId (i v : Nat) :
    Entity.GetVersion (Entity.NewId i v) = v % 2 ^ 32 := by
  unfold Entity.GetVersion Entity.NewId
  omega

theorem Entity.GetVersion_lt (id : Nat) : Entity.GetVersion id < 2 ^ 32 :=
  Nat.mod_lt _ (by norm_num)

theorem Entity.IsValid_NewId_sentinel (v : Nat) :
    Entity.IsValid (Entity.NewId IdxSentinel v) = false := by
  have : Entity.GetIndex (Entity.NewId IdxSentinel v) = IdxSentinel :=
    Entity.GetIndex_NewId _ _ (by norm_num [IdxSentinel])
  simp [Entity.IsValid, this]

theorem Entity.IsValid_NewId_lt (i v : Nat) (hi : i < IdxSentinel) :
    Entity.IsValid (Entity.NewId i v) = true := by
  unfold IdxSentinel at hi
  have hgi : Entity.GetIndex (Entity.NewId i v) = i :=
    Entity.GetIndex_NewId _ _ (by omega)
  simp only [Entity.IsValid, hgi, bne_iff_ne, ne_eq, decide_eq_true_eq]
  unfold IdxSentinel
  omega

/-- Decompose a list at its last element. -/
theorem dropLast_concat_of_getLast? (l : List Nat) (a : Nat)
    (h : l.getLast? = some a) : l.dropLast ++ [a] = l := by
  have hne : l ≠ [] := by rintro rfl; simp at h
  have h2 : l.getLast hne = a := by
    rw [List.getLast?_eq_getLast l hne] at h
    exact Option.some.inj h
  rw [← h2]
  exact List.dropLast_append_getLast hne

theorem mem_dropLast_iff (l : List Nat) (a : Nat) (h : l.getLast? = some a)
    (hnd : l.Nodup) (j : Nat) : j ∈ l.dropLast ↔ (j ∈ l ∧ j ≠ a) := by
  have hdecomp := dropLast_concat_of_getLast? l a h
  have hnd2 : (l.dropLast ++ [a]).Nodup := hdecomp.symm ▸ hnd
  rw [List.nodup_append] at hnd2
  constructor
  · intro hj
    refine ⟨by rw [← hdecomp]; exact List.mem_append_left _ hj, ?_⟩
    intro hja
    exact hnd2.2.2 hj (by simp [hja])
  · intro ⟨hj, hja⟩
    rw [← hdecomp] at hj
    rcases List.mem_append.1 hj with hj | hj
    · exact hj
    · simp at hj; exact absurd hj hja

end ECS

namespace ECS

/-! ### Store invariants (claims C6, C7) -/

/-- The version stored in a slot's current identifier. -/
def storedVersion (s : Scene) (i : Nat) : Nat :=
  Entity.GetVersion ((s.entities.getD i default).id)

theorem storedVersion_lt (s : Scene) (i : Nat) : storedVersion s i < 2 ^ 32 :=
  Entity.GetVersion_lt _

theorem newEntity_of_getLast_some (s : Scene) (i : Nat)
    (h : s.freelist.getLast? = some i) :
    s.NewEntity =
      (Scene.mk
        (s.entities.set i (EntityPack.mk (Entity.NewId i (storedVersion s i))
          (s.entities.getD i default).mask))
        s.freelist.dropLast s.pools,
       Entity.NewId i (storedVersion s i)) := by
  unfold Scene.NewEntity storedVersion
  rw [h]

theorem newEntity_of_getLast_none (s : Scene)
    (h : s.freelist.getLast? = none) :
    s.NewEntity =
      (Scene.mk
        (s.entities ++ [EntityPack.mk (Entity.NewId s.entities.length 0) 0])
        s.freelist s.pools,
       Entity.NewId s.entities.length 0) := by
  unfold Scene.NewEntity
  rw [h]

theorem removeEntity_eq (s : Scene) (id : Nat) :
    s.RemoveEntity id =
      Scene.mk
        (s.entities.set (Entity.GetIndex id)
          (EntityPack.mk (Entity.NewId IdxSentinel (Entity.GetVersion id + 1)) 0))
        (s.freelist ++ [Entity.GetIndex id]) s.pools := rfl

theorem addComponent_entities (s : Scene) (id cid payload : Nat) :
    (s.AddComponent id cid payload).entities =
      s.entities.set (Entity.GetIndex id)
        (EntityPack.mk ((s.entities.getD (Entity.GetIndex id) default).id)
          (maskSet (s.entities.getD (Entity.GetIndex id) default).mask cid)) := rfl

theorem addComponent_freelist (s : Scene) (id cid payload : Nat) :
    (s.AddComponent id cid payload).freelist = s.freelist := rfl

/-- The reachable-state invariant tying the freelist to tombstoned slots:
every freelisted index is in range, the freelist has no duplicates, a slot
is invalid exactly when it is freelisted, every slot stores its own index
or the sentinel, and the table never outgrows the sentinel. -/
structure Inv (s : Scene) : Prop where
  freelist_lt : ∀ i ∈ s.freelist, i < s.entities.length
  freelist_nodup : s.freelist.Nodup
  invalid_iff_mem : ∀ i, i < s.entities.length →
    (Entity.IsValid (s.entities.getD i default).id = false ↔ i ∈ s.freelist)
  index_eq : ∀ i, i < s.entities.length →
    Entity.GetIndex (s.entities.getD i default).id = i ∨
    Entity.GetIndex (s.entities.getD i default).id = IdxSentinel
  length_le : s.entities.length ≤ IdxSentinel

theorem Inv_empty : Inv Scene.empty := by
  refine ⟨?_, ?_, ?_, ?_, ?_⟩ <;> simp [Scene.empty, IdxSentinel]

/-- Writing a new mask into a slot while keeping its identifier preserves
the invariant (the shape of `AddComponent` and a successful
`RemoveComponent`). -/
theorem Inv_set_same_id (s : Scene) (i m : Nat)
    (pools' : List (Option (List (Nat × Nat)))) (hinv : Inv s) :
    Inv (Scene.mk
      (s.entities.set i (EntityPack.mk ((s.entities.getD i default).id) m))
      s.freelist pools') := by
  obtain ⟨h1, h2, h3, h4, h5⟩ := hinv
  by_cases hi : i < s.entities.length
  · refine ⟨?_, h2, ?_, ?_, ?_⟩
    · intro j hj
      simpa [List.length_set] using h1 j hj
    · intro j hj
      simp only [List.length_set] at hj
      by_cases hji : j = i
      · subst hji
        rw [getD_set_self _ _ _ hi]
        exact h3 j hj
      · rw [getD_set_ne _ _ _ _ (fun he => hji he.symm)]
        exact h3 j hj
    · intro j hj
      simp only [List.length_set] at hj
      by_cases hji : j = i
      · subst hji
        rw [getD_set_self _ _ _ hi]
        exact h4 j hj
      · rw [getD_set_ne _ _ _ _ (fun he => hji he.symm)]
        exact h4 j hj
    · simpa [List.length_set] using h5
  · have hset : s.entities.set i (EntityPack.mk ((s.entities.getD i default).id) m)
        = s.entities := List.set_eq_of_length_le (by omega)
    rw [hset]
    exact ⟨h1, h2, h3, h4, h5⟩

theorem Inv_step (s : Scene) (op : Op) (hwf : wfOp s op = true) (hinv : Inv s) :
    Inv (step s op) := by
  obtain ⟨h1, h2, h3, h4, h5⟩ := hinv
  cases op with
  | newE =>
      simp only [wfOp, decide_eq_true_eq] at hwf
      cases hfl : s.freelist.getLast? with
      | some i =>
          have hmem : i ∈ s.freelist := by
            rw [← dropLast_concat_of_getLast? s.freelist i hfl]
            exact List.mem_append_right _ (List.mem_singleton_self i)
          have hilt : i < s.entities.length := h1 i hmem
          have hisent : i < IdxSentinel := lt_of_lt_of_le hilt h5
          have hstep : step s Op.newE =
              Scene.mk
                (s.entities.set i (EntityPack.mk (Entity.NewId i (storedVersion s i))
                  (s.entities.getD i default).mask))
                s.freelist.dropLast s.pools := by
            show s.NewEntity.1 = _
            rw [newEntity_of_getLast_some s i hfl]
          rw [hstep]
          have hvalid : Entity.IsValid (Entity.NewId i (storedVersion s i)) = true :=
            Entity.IsValid_NewId_lt i _ hisent
          refine ⟨?_, h2.sublist (List.dropLast_sublist _), ?_, ?_, ?_⟩
          · intro j hj
            rw [List.length_set]
            exact h1 j ((mem_dropLast_iff _ i hfl h2 j).1 hj).1
          · intro j hj
            simp only [List.length_set] at hj
            rw [mem_dropLast_iff _ i hfl h2 j]
            by_cases hji : j = i
            · subst hji
              rw [getD_set_self _ _ _ hilt]
              simp [hvalid]
            · rw [getD_set_ne _ _ _ _ (fun he => hji he.symm)]
              rw [h3 j hj]
              constructor
              · intro hm; exact ⟨hm, hji⟩
              · intro hm; exact hm.1
          · intro j hj
            simp only [List.length_set] at hj
            by_cases hji : j = i
            · subst hji
              rw [getD_set_self _ _ _ hilt]
              left
              exact Entity.GetIndex_NewId _ _ (by unfold IdxSentinel at hisent; omega)
            · rw [getD_set_ne _ _ _ _ (fun he => hji he.symm)]
              exact h4 j hj
          · simpa [List.length_set] using h5
      | none =>
          have hnil : s.freelist = [] := List.getLast?_eq_none_iff.mp hfl
          have hstep : step s Op.newE =
              Scene.mk
                (s.entities ++ [EntityPack.mk (Entity.NewId s.entities.length 0) 0])
                s.freelist s.pools := by
            show s.NewEntity.1 = _
            rw [newEntity_of_getLast_none s hfl]
          rw [hstep]
          have hlen : s.entities.length < IdxSentinel := hwf
          have hvalid : Entity.IsValid (Entity.NewId s.entities.length 0) = true :=
            Entity.IsValid_NewId_lt _ _ hlen
          refine ⟨?_, h2, ?_, ?_, ?_⟩
          · intro j hj
            rw [hnil] at hj
            exact absurd hj (List.not_mem_nil j)
          · intro j hj
            rw [List.length_append, List.length_singleton] at hj
            by_cases hjl : j < s.entities.length
            · rw [getD_append_left _ _ _ hjl]
              exact h3 j hjl
            · have hje : j = s.entities.length := by omega
              subst hje
              rw [getD_append_self]
              rw [hnil]
              simp [hvalid]
          · intro j hj
            rw [List.length_append, List.length_singleton] at hj
            by_cases hjl : j < s.entities.length
            · rw [getD_append_left _ _ _ hjl]
              exact h4 j hjl
            · have hje : j = s.entities.length := by omega
              subst hje
              rw [getD_append_self]
              left
              exact Entity.GetIndex_NewId _ _ (by unfold IdxSentinel at hlen; omega)
          · rw [List.length_append, List.length_singleton]
            unfold IdxSentinel at hlen ⊢
            omega
  | removeE id =>
      simp only [wfOp, Bool.and_eq_true, decide_eq_true_eq, beq_iff_eq] at hwf
      obtain ⟨⟨hvalid, hidx⟩, hstored⟩ := hwf
      have hnotmem : Entity.GetIndex id ∉ s.freelist := by
        intro hm
        have hfalse := (h3 _ hidx).2 hm
        rw [hstored, hvalid] at hfalse
        simp at hfalse
      have hstep : step s (Op.removeE id) =
          Scene.mk
            (s.entities.set (Entity.GetIndex id)
              (EntityPack.mk (Entity.NewId IdxSentinel (Entity.GetVersion id + 1)) 0))
            (s.freelist ++ [Entity.GetIndex id]) s.pools := removeEntity_eq s id
      rw [hstep]
      refine ⟨?_, ?_, ?_, ?_, ?_⟩
      · intro j hj
        rw [List.length_set]
        rcases List.mem_append.1 hj with hj | hj
        · exact h1 j hj
        · rw [List.mem_singleton] at hj
          subst hj
          exact hidx
      · refine List.nodup_append.2 ⟨h2, List.nodup_singleton _, ?_⟩
        intro a ha hb
        rw [List.mem_singleton] at hb
        subst hb
        exact hnotmem ha
      · intro j hj
        simp only [List.length_set] at hj
        by_cases hji : j = Entity.GetIndex id
        · subst hji
          rw [getD_set_self _ _ _ hidx]
          simp [Entity.IsValid_NewId_sentinel]
        · rw [getD_set_ne _ _ _ _ (fun he => hji he.symm)]
          rw [h3 j hj]
          constructor
          · intro hm
            exact List.mem_append_left _ hm
          · intro hm
            rcases List.mem_append.1 hm with hm | hm
            · exact hm
            · rw [List.mem_singleton] at hm
              exact absurd hm hji
      · intro j hj
        simp only [List.length_set] at hj
        by_cases hji : j = Entity.GetIndex id
        · subst hji
          rw [getD_set_self _ _ _ hidx]
          right
          exact Entity.GetIndex_NewId _ _ (by unfold IdxSentinel; omega)
        · rw [getD_set_ne _ _ _ _ (fun he => hji he.symm)]
          exact h4 j hj
      · simpa [List.length_set] using h5
  | addC id cid payload =>
      have hstep : step s (Op.addC id cid payload) =
          Scene.mk
            (s.entities.set (Entity.GetIndex id)
              (EntityPack.mk ((s.entities.getD (Entity.GetIndex id) default).id)
                (maskSet (s.entities.getD (Entity.GetIndex id) default).mask cid)))
            s.freelist (s.AddComponent id cid payload).pools := rfl
      rw [hstep]
      exact Inv_set_same_id s _ _ _ ⟨h1, h2, h3, h4, h5⟩
  | removeC id cid =>
      by_cases hc : (s.HasComponent id cid ∧
          (s.entities.getD (Entity.GetIndex id) default).id = id)
      · have hstep : step s (Op.removeC id cid) =
            Scene.mk
              (s.entities.set (Entity.GetIndex id)
                (EntityPack.mk ((s.entities.getD (Entity.GetIndex id) default).id)
                  (maskReset (s.entities.getD (Entity.GetIndex id) default).mask cid)))
              s.freelist s.pools := by
          show (s.RemoveComponent id cid).getD s = _
          rw [removeComponent_spec, if_pos hc]
          rfl
        rw [hstep]
        exact Inv_set_same_id s _ _ _ ⟨h1, h2, h3, h4, h5⟩
      · have hstep : step s (Op.removeC id cid) = s := by
          show (s.RemoveComponent id cid).getD s = _
          rw [removeComponent_spec, if_neg hc]
          rfl
        rw [hstep]
        exact ⟨h1, h2, h3, h4, h5⟩

theorem Inv_run (s : Scene) (ops : List Op) (hwf : wfRun s ops = true)
    (hinv : Inv s) : Inv (run s ops) := by
  induction ops generalizing s with
  | nil => exact hinv
  | cons op ops ih =>
      rw [wfRun, Bool.and_eq_true] at hwf
      exact ih (step s op) hwf.2 (Inv_step s op hwf.1 hinv)

end ECS

namespace ECS

/-! ### Claim C7: the freelist is exactly the tombstoned slots -/

/-- **C7 counterexample**.  The claim quantifies over *any* sequence of
store operations.  Destroying the same identifier twice (a stale destroy,
which `RemoveEntity` never checks for) pushes the same slot onto the
freelist twice: after `[new, remove 0, remove 0]` the freelist is `[0, 0]`,
so a slot appears more than once. -/
theorem C7_counterexample_double_destroy :
    (run Scene.empty [Op.newE, Op.removeE 0, Op.removeE 0]).freelist = [0, 0] ∧
    ¬ (run Scene.empty [Op.newE, Op.removeE 0, Op.removeE 0]).freelist.Nodup := by
  constructor
  · rfl
  · intro h
    rw [show (run Scene.empty [Op.newE, Op.removeE 0, Op.removeE 0]).freelist
        = [0, 0] from rfl] at h
    simp at h

/-- **C7** (corrected).  In every store state reachable from the empty
scene by a contract-respecting trace (destroys use the slot's current valid
identifier; the table stays below the index sentinel), the freelist holds
exactly the slot indices whose stored identifier carries the sentinel
index, with no slot appearing twice. -/
theorem C7_freelist_exactly_tombstones (ops : List Op)
    (hwf : wfRun Scene.empty ops = true) :
    (∀ i, i ∈ (run Scene.empty ops).freelist ↔
      (i < (run Scene.empty ops).entities.length ∧
       Entity.GetIndex ((run Scene.empty ops).entities.getD i default).id
         = IdxSentinel)) ∧
    (run Scene.empty ops).freelist.Nodup := by
  obtain ⟨h1, h2, h3, h4, h5⟩ := Inv_run Scene.empty ops hwf Inv_empty
  refine ⟨?_, h2⟩
  intro i
  constructor
  · intro hm
    have hlt := h1 i hm
    refine ⟨hlt, ?_⟩
    have hinvalid := (h3 i hlt).2 hm
    simp only [Entity.IsValid, bne_eq_false_iff_eq] at hinvalid
    exact hinvalid
  · intro ⟨hlt, hsent⟩
    refine (h3 i hlt).1 ?_
    simp only [Entity.IsValid, hsent]
    simp

/-- Witness for C7: the two-operation trace `[new, remove 0]` is
contract-respecting; applying the theorem characterizes whether slot 0 is
freelisted in the resulting state. -/
theorem C7_witness :
    (wfRun Scene.empty [Op.newE, Op.removeE 0] = true) ∧
    ((0 ∈ (run Scene.empty [Op.newE, Op.removeE 0]).freelist) ↔
      (0 < (run Scene.empty [Op.newE, Op.removeE 0]).entities.length ∧
       Entity.GetIndex ((run Scene.empty [Op.newE, Op.removeE 0]).entities.getD
         0 default).id = IdxSentinel)) ∧
    (run Scene.empty [Op.newE, Op.removeE 0]).freelist.Nodup := by
  refine ⟨by decide, ?_, ?_⟩
  · exact (C7_freelist_exactly_tombstones [Op.newE, Op.removeE 0] (by decide)).1 0
  · exact (C7_freelist_exactly_tombstones [Op.newE, Op.removeE 0] (by decide)).2

end ECS

namespace ECS

/-! ### Claim C6: destroyed identifiers and version monotonicity -/

/-- Does this operation destroy the entity in slot `i`? -/
def isRemoveAt (i : Nat) : Op → Bool
  | Op.removeE id => Entity.GetIndex id == i
  | _ => false

/-- Number of destroys targeting slot `i` in a trace. -/
def rmCount (ops : List Op) (i : Nat) : Nat := ops.countP (isRemoveAt i)

theorem rmCount_cons (op : Op) (ops : List Op) (i : Nat) :
    rmCount (op :: ops) i = rmCount ops i + (if isRemoveAt i op then 1 else 0) :=
  List.countP_cons _ _ _

theorem rmCount_append (a b : List Op) (i : Nat) :
    rmCount (a ++ b) i = rmCount a i + rmCount b i :=
  List.countP_append _ _ _

/-- The version stored at slot `i`, or 0 when the slot does not exist yet. -/
def verAt (s : Scene) (i : Nat) : Nat :=
  if i < s.entities.length then storedVersion s i else 0

theorem verAt_lt (s : Scene) (i : Nat) : verAt s i < 2 ^ 32 := by
  unfold verAt
  split
  · exact storedVersion_lt s i
  · norm_num

theorem length_le_step (s : Scene) (op : Op) :
    s.entities.length ≤ (step s op).entities.length := by
  cases op with
  | newE =>
      cases hfl : s.freelist.getLast? with
      | some i =>
          have hstep : (step s Op.newE).entities = s.entities.set i
              (EntityPack.mk (Entity.NewId i (storedVersion s i))
                (s.entities.getD i default).mask) := by
            show s.NewEntity.1.entities = _
            rw [newEntity_of_getLast_some s i hfl]
          rw [hstep, List.length_set]
      | none =>
          have hstep : (step s Op.newE).entities =
              s.entities ++ [EntityPack.mk (Entity.NewId s.entities.length 0) 0] := by
            show s.NewEntity.1.entities = _
            rw [newEntity_of_getLast_none s hfl]
          rw [hstep, List.length_append]
          omega
  | removeE id =>
      rw [show step s (Op.removeE id) = _ from removeEntity_eq s id]
      simp [List.length_set]
  | addC id cid payload =>
      rw [show (step s (Op.addC id cid payload)).entities = _ from
        addComponent_entities s id cid payload]
      rw [List.length_set]
  | removeC id cid =>
      by_cases hc : (s.HasComponent id cid ∧
          (s.entities.getD (Entity.GetIndex id) default).id = id)
      · have hstep : step s (Op.removeC id cid) = removedScene s id cid := by
          show (s.RemoveComponent id cid).getD s = _
          rw [removeComponent_spec, if_pos hc]
          rfl
        rw [hstep]
        show s.entities.length ≤ (s.entities.set _ _).length
        rw [List.length_set]
      · have hstep : step s (Op.removeC id cid) = s := by
          show (s.RemoveComponent id cid).getD s = _
          rw [removeComponent_spec, if_neg hc]
          rfl
        rw [hstep]

theorem length_le_run (s : Scene) (ops : List Op) :
    s.entities.length ≤ (run s ops).entities.length := by
  induction ops generalizing s with
  | nil => exact le_refl _
  | cons op ops ih => exact le_trans (length_le_step s op) (ih (step s op))


/-- Overwriting a slot's mask while keeping its identifier does not change
any stored version. -/
theorem verAt_of_entities_set_same_id (s s' : Scene) (j m : Nat)
    (h : s'.entities =
      s.entities.set j (EntityPack.mk ((s.entities.getD j default).id) m))
    (i : Nat) : verAt s' i = verAt s i := by
  unfold verAt storedVersion
  rw [h, List.length_set]
  by_cases hij : i = j
  · subst hij
    by_cases hil : i < s.entities.length
    · rw [if_pos hil, if_pos hil, getD_set_self _ _ _ hil]
    · rw [if_neg hil, if_neg hil]
  · by_cases hil : i < s.entities.length
    · rw [if_pos hil, if_pos hil, getD_set_ne _ _ _ _ (fun he => hij he.symm)]
    · rw [if_neg hil, if_neg hil]

/-- One well-formed step changes the version stored at slot `i` exactly by
the number of destroys it performs on that slot, modulo `2^32`. -/
theorem verAt_step (s : Scene) (op : Op) (hwf : wfOp s op = true)
    (hinv : Inv s) (i : Nat) :
    verAt (step s op) i =
      (verAt s i + (if isRemoveAt i op then 1 else 0)) % 2 ^ 32 := by
  have hmod : verAt s i % 2 ^ 32 = verAt s i := Nat.mod_eq_of_lt (verAt_lt s i)
  cases op with
  | newE =>
      have hδ : isRemoveAt i Op.newE = false := rfl
      rw [hδ]
      simp only [Bool.false_eq_true, if_false, Nat.add_zero, hmod]
      cases hfl : s.freelist.getLast? with
      | some j =>
          have hjmem : j ∈ s.freelist := by
            rw [← dropLast_concat_of_getLast? s.freelist j hfl]
            exact List.mem_append_right _ (List.mem_singleton_self j)
          have hjlt : j < s.entities.length := hinv.freelist_lt j hjmem
          have hstep : (step s Op.newE).entities = s.entities.set j
              (EntityPack.mk (Entity.NewId j (storedVersion s j))
                (s.entities.getD j default).mask) := by
            show s.NewEntity.1.entities = _
            rw [newEntity_of_getLast_some s j hfl]
          unfold verAt storedVersion
          rw [hstep, List.length_set]
          by_cases hij : i = j
          · subst hij
            rw [if_pos hjlt, if_pos hjlt, getD_set_self _ _ _ hjlt]
            rw [show (EntityPack.mk (Entity.NewId i (storedVersion s i))
              (s.entities.getD i default).mask).id
                = Entity.NewId i (storedVersion s i) from rfl]
            rw [Entity.GetVersion_NewId]
            exact Nat.mod_eq_of_lt (storedVersion_lt s i)
          · by_cases hil : i < s.entities.length
            · rw [if_pos hil, if_pos hil, getD_set_ne _ _ _ _ (fun he => hij he.symm)]
            · rw [if_neg hil, if_neg hil]
      | none =>
          have hstep : (step s Op.newE).entities =
              s.entities ++ [EntityPack.mk (Entity.NewId s.entities.length 0) 0] := by
            show s.NewEntity.1.entities = _
            rw [newEntity_of_getLast_none s hfl]
          unfold verAt storedVersion
          rw [hstep, List.length_append, List.length_singleton]
          by_cases hil : i < s.entities.length
          · rw [if_pos (by omega), if_pos hil, getD_append_left _ _ _ hil]
          · by_cases hie : i = s.entities.length
            · subst hie
              rw [if_pos (by omega), if_neg hil, getD_append_self]
              rw [show (EntityPack.mk (Entity.NewId s.entities.length 0) 0).id
                = Entity.NewId s.entities.length 0 from rfl]
              rw [Entity.GetVersion_NewId, Nat.zero_mod]
            · rw [if_neg (by omega), if_neg hil]
  | removeE id =>
      simp only [wfOp, Bool.and_eq_true, decide_eq_true_eq, beq_iff_eq] at hwf
      obtain ⟨⟨hvalid, hidx⟩, hstored⟩ := hwf
      have hstep : (step s (Op.removeE id)).entities =
          s.entities.set (Entity.GetIndex id)
            (EntityPack.mk (Entity.NewId IdxSentinel (Entity.GetVersion id + 1)) 0) := by
        rw [show step s (Op.removeE id) = _ from removeEntity_eq s id]
      by_cases hij : i = Entity.GetIndex id
      · subst hij
        have hδ : isRemoveAt (Entity.GetIndex id) (Op.removeE id) = true := by
          simp [isRemoveAt]
        rw [hδ, if_pos rfl]
        unfold verAt storedVersion
        rw [hstep, List.length_set, if_pos hidx, if_pos hidx]
        rw [getD_set_self _ _ _ hidx]
        rw [show (EntityPack.mk (Entity.NewId IdxSentinel (Entity.GetVersion id + 1)) 0).id
          = Entity.NewId IdxSentinel (Entity.GetVersion id + 1) from rfl]
        rw [Entity.GetVersion_NewId, hstored]
      · have hδ : isRemoveAt i (Op.removeE id) = false := by
          simp only [isRemoveAt, beq_eq_false_iff_ne, ne_eq]
          exact fun he => hij he.symm
        rw [hδ]
        simp only [Bool.false_eq_true, if_false, Nat.add_zero, hmod]
        unfold verAt storedVersion
        rw [hstep, List.length_set]
        by_cases hil : i < s.entities.length
        · rw [if_pos hil, if_pos hil,
            getD_set_ne _ _ _ _ (fun he => hij he.symm)]
        · rw [if_neg hil, if_neg hil]
  | addC id cid payload =>
      have hδ : isRemoveAt i (Op.addC id cid payload) = false := rfl
      rw [hδ]
      simp only [Bool.false_eq_true, if_false, Nat.add_zero, hmod]
      exact verAt_of_entities_set_same_id s _ (Entity.GetIndex id)
        (maskSet (s.entities.getD (Entity.GetIndex id) default).mask cid)
        (addComponent_entities s id cid payload) i
  | removeC id cid =>
      have hδ : isRemoveAt i (Op.removeC id cid) = false := rfl
      rw [hδ]
      simp only [Bool.false_eq_true, if_false, Nat.add_zero, hmod]
      by_cases hc : (s.HasComponent id cid ∧
          (s.entities.getD (Entity.GetIndex id) default).id = id)
      · have hstep : (step s (Op.removeC id cid)).entities =
            s.entities.set (Entity.GetIndex id)
              (EntityPack.mk ((s.entities.getD (Entity.GetIndex id) default).id)
                (maskReset (s.entities.getD (Entity.GetIndex id) default).mask cid)) := by
          show ((s.RemoveComponent id cid).getD s).entities = _
          rw [removeComponent_spec, if_pos hc]
          rfl
        exact verAt_of_entities_set_same_id s _ (Entity.GetIndex id)
          (maskReset (s.entities.getD (Entity.GetIndex id) default).mask cid) hstep i
      · have hstep : step s (Op.removeC id cid) = s := by
          show (s.RemoveComponent id cid).getD s = _
          rw [removeComponent_spec, if_neg hc]
          rfl
        rw [hstep]

/-- Versions accumulate the per-slot destroy count along any well-formed
trace, modulo `2^32`. -/
theorem verAt_run (ops : List Op) (s : Scene) (hwf : wfRun s ops = true)
    (hinv : Inv s) (i : Nat) :
    verAt (run s ops) i = (verAt s i + rmCount ops i) % 2 ^ 32 := by
  induction ops generalizing s with
  | nil =>
      show verAt s i = (verAt s i + 0) % 2 ^ 32
      rw [Nat.add_zero]
      exact (Nat.mod_eq_of_lt (verAt_lt s i)).symm
  | cons op ops ih =>
      rw [wfRun, Bool.and_eq_true] at hwf
      have hstep := verAt_step s op hwf.1 hinv i
      have hrest := ih (step s op) hwf.2 (Inv_step s op hwf.1 hinv)
      show verAt (run (step s op) ops) i = _
      rw [hrest, hstep, Nat.mod_add_mod, rmCount_cons]
      congr 1
      omega

end ECS

namespace ECS

theorem newEntity_snd_of_getLast_some (s : Scene) (i : Nat)
    (h : s.freelist.getLast? = some i) :
    s.NewEntity.2 = Entity.NewId i (storedVersion s i) := by
  rw [newEntity_of_getLast_some s i h]

/-- **C6** (corrected).  Along any contract-respecting trace from the empty
scene in which the destroyed slot is targeted by fewer than `2^32` destroys
(so its 32-bit version counter cannot wrap), once `removeE id` executes,
the store never again holds `id` in its slot, and any later `NewEntity`
that would reuse that slot returns an identifier with a strictly greater
version. -/
theorem C6_destroyed_id_never_valid_again (ops1 : List Op) (id : Nat)
    (p q : List Op)
    (hwf : wfRun Scene.empty (ops1 ++ Op.removeE id :: (p ++ q)) = true)
    (hcnt : rmCount (ops1 ++ Op.removeE id :: (p ++ q)) (Entity.GetIndex id)
      < 2 ^ 32) :
    ((run Scene.empty (ops1 ++ Op.removeE id :: p)).entities.getD
        (Entity.GetIndex id) default).id ≠ id ∧
    ((run Scene.empty (ops1 ++ Op.removeE id :: p)).freelist.getLast?
        = some (Entity.GetIndex id) →
      Entity.GetVersion id <
        Entity.GetVersion
          ((run Scene.empty (ops1 ++ Op.removeE id :: p)).NewEntity.2)) := by
  rw [wfRun_append, Bool.and_eq_true] at hwf
  obtain ⟨hwf1, hwf2⟩ := hwf
  rw [show wfRun (run Scene.empty ops1) (Op.removeE id :: (p ++ q)) =
      (wfOp (run Scene.empty ops1) (Op.removeE id) &&
        wfRun (step (run Scene.empty ops1) (Op.removeE id)) (p ++ q)) from rfl,
    Bool.and_eq_true] at hwf2
  obtain ⟨hwfop, hwf3⟩ := hwf2
  rw [wfRun_append, Bool.and_eq_true] at hwf3
  obtain ⟨hwfp, hwfq⟩ := hwf3
  have hinv1 : Inv (run Scene.empty ops1) := Inv_run _ _ hwf1 Inv_empty
  have hwo := hwfop
  simp only [wfOp, Bool.and_eq_true, decide_eq_true_eq, beq_iff_eq] at hwo
  obtain ⟨⟨hvalid, hidx⟩, hstored⟩ := hwo
  have hone : (if isRemoveAt (Entity.GetIndex id) (Op.removeE id) then 1 else 0)
      = 1 := by simp [isRemoveAt]
  rw [rmCount_append, rmCount_cons, hone] at hcnt
  have hpq : rmCount p (Entity.GetIndex id)
      ≤ rmCount (p ++ q) (Entity.GetIndex id) := by
    rw [rmCount_append]; omega
  have hverempty : verAt Scene.empty (Entity.GetIndex id) = 0 := by
    unfold verAt Scene.empty
    simp
  have hva1 : verAt (run Scene.empty ops1) (Entity.GetIndex id)
      = rmCount ops1 (Entity.GetIndex id) := by
    rw [verAt_run ops1 Scene.empty hwf1 Inv_empty, hverempty, Nat.zero_add,
      Nat.mod_eq_of_lt (by omega)]
  have hgv : Entity.GetVersion id = rmCount ops1 (Entity.GetIndex id) := by
    have hv : verAt (run Scene.empty ops1) (Entity.GetIndex id)
        = Entity.GetVersion id := by
      unfold verAt storedVersion
      rw [if_pos hidx, hstored]
    rw [← hv]
    exact hva1
  have hva2 : verAt (step (run Scene.empty ops1) (Op.removeE id))
      (Entity.GetIndex id) = rmCount ops1 (Entity.GetIndex id) + 1 := by
    rw [verAt_step (run Scene.empty ops1) (Op.removeE id) hwfop hinv1, hone,
      hva1, Nat.mod_eq_of_lt (by omega)]
  have hinv2 : Inv (step (run Scene.empty ops1) (Op.removeE id)) :=
    Inv_step _ _ hwfop hinv1
  have hvap : verAt (run (step (run Scene.empty ops1) (Op.removeE id)) p)
      (Entity.GetIndex id)
      = rmCount ops1 (Entity.GetIndex id) + 1 + rmCount p (Entity.GetIndex id) := by
    rw [verAt_run p _ hwfp hinv2, hva2, Nat.mod_eq_of_lt (by omega)]
  have hlen2 : (step (run Scene.empty ops1) (Op.removeE id)).entities.length
      = (run Scene.empty ops1).entities.length := by
    rw [show step (run Scene.empty ops1) (Op.removeE id) = _ from
      removeEntity_eq _ id]
    exact List.length_set _ _ _
  have hlenp : (step (run Scene.empty ops1) (Op.removeE id)).entities.length
      ≤ (run (step (run Scene.empty ops1) (Op.removeE id)) p).entities.length :=
    length_le_run _ p
  have hilen : Entity.GetIndex id
      < (run (step (run Scene.empty ops1) (Op.removeE id)) p).entities.length := by
    omega
  have hsv : storedVersion (run (step (run Scene.empty ops1) (Op.removeE id)) p)
      (Entity.GetIndex id)
      = rmCount ops1 (Entity.GetIndex id) + 1 + rmCount p (Entity.GetIndex id) := by
    have hx := hvap
    unfold verAt at hx
    rw [if_pos hilen] at hx
    exact hx
  have hrun : run Scene.empty (ops1 ++ Op.removeE id :: p)
      = run (step (run Scene.empty ops1) (Op.removeE id)) p := by
    rw [run_append]
    rfl
  constructor
  · rw [hrun]
    intro heq
    have hx : storedVersion (run (step (run Scene.empty ops1) (Op.removeE id)) p)
        (Entity.GetIndex id) = Entity.GetVersion id := by
      unfold storedVersion
      rw [heq]
    rw [hsv, hgv] at hx
    omega
  · rw [hrun]
    intro hlast
    rw [newEntity_snd_of_getLast_some _ _ hlast, Entity.GetVersion_NewId, hsv,
      hgv, Nat.mod_eq_of_lt (by omega)]
    omega

end ECS

namespace ECS

/-- **C6 counterexample**.  The claim quantifies over *every* sequence of
create/destroy operations.  `RemoveEntity` trusts the argument id, so a
stale destroy rolls a slot's version back: after
`[new, remove 0, new, remove 1, new, remove 0]` (the last destroy passes
the long-dead identifier 0 while the slot currently holds identifier 2),
the next `NewEntity` returns identifier 1 = `NewId 0 1` — an identifier
destroyed earlier in the same trace (`remove 1`) — and its version (1) is
not strictly greater than the destroyed identifier's version (1); one more
create stores that revived identifier in the table. -/
theorem C6_counterexample_stale_destroy :
    ((run Scene.empty [Op.newE, Op.removeE 0, Op.newE, Op.removeE 1, Op.newE,
        Op.removeE 0, Op.newE]).entities.getD 0 default).id = 1 ∧
    Entity.IsValid 1 = true ∧
    (run Scene.empty [Op.newE, Op.removeE 0, Op.newE, Op.removeE 1, Op.newE,
        Op.removeE 0]).NewEntity.2 = 1 ∧
    ¬ (Entity.GetVersion 1 < Entity.GetVersion ((run Scene.empty [Op.newE,
        Op.removeE 0, Op.newE, Op.removeE 1, Op.newE,
        Op.removeE 0]).NewEntity.2)) := by
  refine ⟨by decide, by decide, by decide, by decide⟩

/-- Witness for C6: the two-operation trace `[new, remove 0]` satisfies the
hypotheses; the theorem then gives both conclusions for the state right
after the destroy. -/
theorem C6_witness :
    (wfRun Scene.empty ([Op.newE] ++ Op.removeE 0 :: ([] ++ [])) = true) ∧
    (rmCount ([Op.newE] ++ Op.removeE 0 :: ([] ++ []))
      (Entity.GetIndex 0) < 2 ^ 32) ∧
    (((run Scene.empty ([Op.newE] ++ Op.removeE 0 :: [])).entities.getD
        (Entity.GetIndex 0) default).id ≠ 0) ∧
    ((run Scene.empty ([Op.newE] ++ Op.removeE 0 :: [])).freelist.getLast?
        = some (Entity.GetIndex 0) →
      Entity.GetVersion 0 <
        Entity.GetVersion
          ((run Scene.empty ([Op.newE] ++ Op.removeE 0 :: [])).NewEntity.2)) := by
  refine ⟨by decide, by decide, ?_, ?_⟩
  · exact (C6_destroyed_id_never_valid_again [Op.newE] 0 [] []
      (by decide) (by decide)).1
  · exact (C6_destroyed_id_never_valid_again [Op.newE] 0 [] []
      (by decide) (by decide)).2

end ECS

/-!
## Steering behaviors (`src/src/System.h`, `src/src/Component.h`,
`src/src/Transformation.h`)

`glm::vec2` is modelled as `ℝ × ℝ` and `float` arithmetic as exact real
arithmetic.  `glm::length v = sqrt (x*x + y*y)`, `glm::normalize v =
v / length v`, and `glm::epsilon<float>() = 2⁻²³` (`FLT_EPSILON`).
-/

noncomputable section

namespace steering

/-- Componentwise scalar multiplication (`v *= c`). -/
def vscale (c : ℝ) (v : ℝ × ℝ) : ℝ × ℝ := (c * v.1, c * v.2)

/-- Componentwise scalar division (`v /= c`). -/
def vdiv (v : ℝ × ℝ) (c : ℝ) : ℝ × ℝ := (v.1 / c, v.2 / c)

/-- `glm::length`. -/
def vlen (v : ℝ × ℝ) : ℝ := Real.sqrt (v.1 * v.1 + v.2 * v.2)

/-- `glm::dot`. -/
def dotp (a b : ℝ × ℝ) : ℝ := a.1 * b.1 + a.2 * b.2

/-- `glm::normalize`. -/
def vnormalize (v : ℝ × ℝ) : ℝ × ℝ := vdiv v (vlen v)

/-- `glm::epsilon<float>()` = `FLT_EPSILON` = `2⁻²³`. -/
def epsF : ℝ := 1 / 2 ^ 23

/-- The repeated clamping pattern
`if (bound < glm::length v) { v /= length; v *= bound; }`. -/
def clampVec (bound : ℝ) (v : ℝ × ℝ) : ℝ × ℝ :=
  if bound < vlen v then vscale bound (vdiv v (vlen v)) else v

/-- `steering::component::Move`. -/
structure Move where
  velocity : ℝ × ℝ
  mass : ℝ
  maxSpeed : ℝ
  maxForce : ℝ

/-- `steering::component::Transform` (`rotation` doubles as the heading). -/
structure Transform where
  position : ℝ × ℝ
  rotation : ℝ × ℝ
  scale : ℝ × ℝ

/-- `steering::component::Flee`. -/
structure Flee where
  radius : ℝ

/-- `steering::component::Arrive`. -/
structure Arrive where
  deceleration : ℝ

/-- `steering::component::Pursuit`. -/
structure Pursuit where
  evaderId : Nat

/-- `steering::component::Evade`. -/
structure Evade where
  pursuerId : Nat
  radius : ℝ

/-- `steering::component::Wander` (the two companion entity ids are left to
the caller, which passes the companions' components to the step). -/
structure Wander where
  point : ℝ × ℝ
  radius : ℝ
  distance : ℝ
  jitter : ℝ

/-- `steering::component::Circle`. -/
structure Circle where
  radius : ℝ

/-- Result of one per-entity steer-and-integrate step: the updated `Move`
and `Transform`, the steering force actually applied (`none` when the
entity was skipped by a guard), and whether the near-stop early `return`
fired (which in the C++ aborts the whole batch). -/
structure StepOut where
  move : Move
  tf : Transform
  applied : Option (ℝ × ℝ)
  halt : Bool

/-- The body of the `Seek` loop (System.h lines 170-214) for one entity,
also reused verbatim by `Pursuit` (lines 377-408) and `Wander`
(lines 513-544). -/
def seekCore (target : ℝ × ℝ) (dt : ℝ) (m : Move) (t : Transform) : StepOut :=
  let direct := target - t.position
  let dist := vlen direct
  if dist < epsF then ⟨m, t, none, false⟩
  else
    let direct := vdiv direct dist
    let velocity := vscale m.maxSpeed direct
    let steering := velocity - m.velocity
    let steering := clampVec m.maxForce steering
    let acc := vdiv steering m.mass
    let vel := m.velocity + vscale dt acc
    let vel := clampVec m.maxSpeed vel
    let pos := t.position + vscale dt vel
    if vlen vel < epsF then
      ⟨{ m with velocity := vel }, { t with position := pos }, some steering, true⟩
    else
      ⟨{ m with velocity := vel },
       { t with position := pos, rotation := vnormalize vel }, some steering, false⟩

/-- The body of the `Flee` loop (System.h lines 224-263) for one entity,
also reused verbatim by `Evade` (lines 438-473): identical to `seekCore`
except the direction is away from the target and the clamped force is
zeroed when the target is outside the flee radius. -/
def fleeCore (radius : ℝ) (target : ℝ × ℝ) (dt : ℝ) (m : Move) (t : Transform) :
    StepOut :=
  let direct := t.position - target
  let dist := vlen direct
  if dist < epsF then ⟨m, t, none, false⟩
  else
    let direct := vdiv direct dist
    let velocity := vscale m.maxSpeed direct
    let steering := velocity - m.velocity
    let steering := clampVec m.maxForce steering
    let steering := if radius < dist then ((0 : ℝ), (0 : ℝ)) else steering
    let acc := vdiv steering m.mass
    let vel := m.velocity + vscale dt acc
    let vel := clampVec m.maxSpeed vel
    let pos := t.position + vscale dt vel
    if vlen vel < epsF then
      ⟨{ m with velocity := vel }, { t with position := pos }, some steering, true⟩
    else
      ⟨{ m with velocity := vel },
       { t with position := pos, rotation := vnormalize vel }, some steering, false⟩

/-- The body of the `Arrive` loop (System.h lines 274-313) for one entity.
Note the near-stop threshold is the fixed constant `10.0f` and the early
`return` fires *before* the position update. -/
def arriveStep (a : Arrive) (target : ℝ × ℝ) (dt : ℝ) (m : Move)
    (t : Transform) : StepOut :=
  let direct := target - t.position
  let dist := vlen direct
  let steering :=
    if epsF < dist then
      let speed := min (dist / a.deceleration) m.maxSpeed
      vdiv (vscale speed direct) dist - m.velocity
    else ((0 : ℝ), (0 : ℝ))
  let steering := clampVec m.maxForce steering
  let acc := vdiv steering m.mass
  let vel := m.velocity + vscale dt acc
  let vel := clampVec m.maxSpeed vel
  if vlen vel < 10 then
    ⟨{ m with velocity := vel }, t, some steering, true⟩
  else
    ⟨{ m with velocity := vel },
     { t with position := t.position + vscale dt vel,
              rotation := vnormalize vel }, some steering, false⟩

/-- `steering::behavior::TurnaroundTime` (System.h lines 319-326). -/
def TurnaroundTime (pT eT : Transform) : ℝ :=
  (dotp pT.rotation (vnormalize (eT.position - pT.position)) - 1) * (-(0.5 : ℝ))

/-- The body of the `Pursuit` loop (System.h lines 335-409) for one entity.
`lookup` is the scene's view of the evader's `Transform`/`Move` components;
`none` models a missing component (the `HasComponent` guards).  The
`glm::acos` angle in the source only feeds `SDL_Log` and has no effect on
state, so it is omitted. -/
def pursuitStep (p : Pursuit) (lookup : Nat → Option (Transform × Move))
    (dt : ℝ) (m : Move) (t : Transform) : StepOut :=
  if ¬ ECS.Entity.IsValid p.evaderId then ⟨m, t, none, false⟩
  else
    match lookup p.evaderId with
    | none => ⟨m, t, none, false⟩
    | some (et, em) =>
        let toV := et.position - t.position
        let dot := dotp t.rotation et.rotation
        let dot2 := dotp t.rotation toV
        let target :=
          if dot2 < 0 ∨ dot < 0.95 then
            let lookaheadtime := vlen toV / (m.maxSpeed + em.maxSpeed)
            let lookaheadtime := lookaheadtime + TurnaroundTime t et
            et.position + vscale lookaheadtime em.velocity
          else et.position
        seekCore target dt m t

/-- The body of the `Evade` loop (System.h lines 419-474) for one entity.
`lookup` is the scene's view of the pursuer's components. -/
def evadeStep (e : Evade) (lookup : Nat → Option (Transform × Move))
    (dt : ℝ) (m : Move) (t : Transform) : StepOut :=
  if ¬ ECS.Entity.IsValid e.pursuerId then ⟨m, t, none, false⟩
  else
    match lookup e.pursuerId with
    | none => ⟨m, t, none, false⟩
    | some (pt, pm) =>
        let toV := pt.position - t.position
        let lookaheadtime := vlen toV / (m.maxSpeed + pm.maxSpeed)
        let target := pt.position + vscale lookaheadtime pm.velocity
        fleeCore e.radius target dt m t

/-- `atan2(y, x)`, as `std::atan2` behaves on reals. -/
def atan2 (y x : ℝ) : ℝ := Complex.arg ⟨x, y⟩

/-- `steering::ToWorld` (Transformation.h lines 43-54): apply the 2D
scale-then-rotate-then-translate matrix built by `TransformMatrix`
(columns `(sx·c, -sx·s)`, `(sy·s, sy·c)`, translation `(px, py)`, where
`θ = atan2(heading.y, heading.x)`). -/
def ToWorld (p pos heading scl : ℝ × ℝ) : ℝ × ℝ :=
  let θ := atan2 heading.2 heading.1
  let c := Real.cos θ
  let s := Real.sin θ
  (scl.1 * c * p.1 + scl.2 * s * p.2 + pos.1,
   -(scl.1 * s) * p.1 + scl.2 * c * p.2 + pos.2)

/-- Result of one per-entity `Wander` step: the updated wander state, own
`Move`/`Transform`, the two companion transforms and the forward circle. -/
structure WanderOut where
  wander : Wander
  move : Move
  tf : Transform
  targetT : Transform
  forwardT : Transform
  forwardC : Circle
  applied : Option (ℝ × ℝ)
  halt : Bool

/-- The body of the `Wander` loop (System.h lines 493-549) for one entity.
`r1, r2` are the two `RandomClamped()` draws; `tt`, `ft`, `fc` are the
target companion's transform, the forward companion's transform and circle.
The persistent point is perturbed, renormalized and rescaled *before* the
near-zero-distance guard, so it is updated even when the entity is skipped;
the companion writes happen only when the full step runs (the early
`return` fires before them). -/
def wanderStep (w : Wander) (r1 r2 : ℝ) (dt : ℝ) (m : Move) (t : Transform)
    (tt ft : Transform) (fc : Circle) : WanderOut :=
  let point := w.point + (r1 * w.jitter * dt, r2 * w.jitter * dt)
  let point := vscale w.radius (vnormalize point)
  let w' := { w with point := point }
  let targetLocal := point + (w.distance, 0)
  let targetWorld := ToWorld targetLocal t.position t.rotation (1, 1)
  let core := seekCore targetWorld dt m t
  if core.applied.isSome && !core.halt then
    { wander := w', move := core.move, tf := core.tf,
      targetT := { tt with position := targetWorld },
      forwardT := { ft with position :=
        core.tf.position + vscale w.distance core.tf.rotation },
      forwardC := { fc with radius := w.radius },
      applied := core.applied, halt := core.halt }
  else
    { wander := w', move := core.move, tf := core.tf,
      targetT := tt, forwardT := ft, forwardC := fc,
      applied := core.applied, halt := core.halt }

end steering

end

noncomputable section

namespace steering

/-! ### Batch loops

Each behavior's range-for is a left-to-right pass.  The near-stop early
`return` in the C++ exits the whole function, so the batch functions stop
processing when `halt` fires, leaving the remaining entities untouched. -/

def seekBatch (target : ℝ × ℝ) (dt : ℝ) :
    List (Move × Transform) → List (Move × Transform)
  | [] => []
  | (m, t) :: rest =>
      let r := seekCore target dt m t
      if r.halt then (r.move, r.tf) :: rest
      else (r.move, r.tf) :: seekBatch target dt rest

def fleeBatch (target : ℝ × ℝ) (dt : ℝ) :
    List (Flee × Move × Transform) → List (Flee × Move × Transform)
  | [] => []
  | (f, m, t) :: rest =>
      let r := fleeCore f.radius target dt m t
      if r.halt then (f, r.move, r.tf) :: rest
      else (f, r.move, r.tf) :: fleeBatch target dt rest

def arriveBatch (target : ℝ × ℝ) (dt : ℝ) :
    List (Arrive × Move × Transform) → List (Arrive × Move × Transform)
  | [] => []
  | (a, m, t) :: rest =>
      let r := arriveStep a target dt m t
      if r.halt then (a, r.move, r.tf) :: rest
      else (a, r.move, r.tf) :: arriveBatch target dt rest

def pursuitBatch (lookup : Nat → Option (Transform × Move)) (dt : ℝ) :
    List (Pursuit × Move × Transform) → List (Pursuit × Move × Transform)
  | [] => []
  | (p, m, t) :: rest =>
      let r := pursuitStep p lookup dt m t
      if r.halt then (p, r.move, r.tf) :: rest
      else (p, r.move, r.tf) :: pursuitBatch lookup dt rest

def evadeBatch (lookup : Nat → Option (Transform × Move)) (dt : ℝ) :
    List (Evade × Move × Transform) → List (Evade × Move × Transform)
  | [] => []
  | (e, m, t) :: rest =>
      let r := evadeStep e lookup dt m t
      if r.halt then (e, r.move, r.tf) :: rest
      else (e, r.move, r.tf) :: evadeBatch lookup dt rest

/-- One entity's worth of `Wander` data: own components plus the two
companion entities' components fetched through the scene. -/
abbrev WEntity := Wander × Move × Transform × Transform × Transform × Circle

/-- Draw the next value of the global random engine stream
(`RandomClamped()`); an exhausted stream keeps returning 0. -/
def nextRand : List ℝ → ℝ × List ℝ
  | [] => (0, [])
  | r :: rs => (r, rs)

def wanderBatch (dt : ℝ) :
    List WEntity → List ℝ → List WEntity × List ℝ
  | [], rng => ([], rng)
  | (w, m, t, tt, ft, fc) :: rest, rng =>
      let d1 := nextRand rng
      let d2 := nextRand d1.2
      let r := wanderStep w d1.1 d2.1 dt m t tt ft fc
      if r.halt then
        ((r.wander, r.move, r.tf, r.targetT, r.forwardT, r.forwardC) :: rest, d2.2)
      else
        let rec' := wanderBatch dt rest d2.2
        ((r.wander, r.move, r.tf, r.targetT, r.forwardT, r.forwardC) :: rec'.1,
         rec'.2)

/-! ### Length and clamping lemmas -/

theorem vlen_nonneg (v : ℝ × ℝ) : 0 ≤ vlen v := Real.sqrt_nonneg _

theorem vlen_eq_of_sq (v : ℝ × ℝ) (c : ℝ) (hc : 0 ≤ c)
    (h : v.1 * v.1 + v.2 * v.2 = c * c) : vlen v = c := by
  rw [vlen, h, Real.sqrt_mul_self hc]

theorem vlen_zero : vlen ((0 : ℝ), (0 : ℝ)) = 0 :=
  vlen_eq_of_sq _ 0 (le_refl 0) (by norm_num)

theorem vlen_scale (a : ℝ) (v : ℝ × ℝ) : vlen (vscale a v) = |a| * vlen v := by
  unfold vlen vscale
  rw [show a * v.1 * (a * v.1) + a * v.2 * (a * v.2)
      = (a * a) * (v.1 * v.1 + v.2 * v.2) from by ring]
  rw [Real.sqrt_mul (mul_self_nonneg a), Real.sqrt_mul_self_eq_abs]

theorem vdiv_eq_vscale (v : ℝ × ℝ) (c : ℝ) : vdiv v c = vscale c⁻¹ v := by
  unfold vdiv vscale
  rw [div_eq_inv_mul, div_eq_inv_mul]

theorem vlen_vdiv (v : ℝ × ℝ) (c : ℝ) : vlen (vdiv v c) = vlen v / |c| := by
  rw [vdiv_eq_vscale, vlen_scale, abs_inv, inv_mul_eq_div]

/-- The clamp really bounds: if the ceiling is nonnegative, the clamped
vector's magnitude never exceeds it. -/
theorem clampVec_le (bound : ℝ) (v : ℝ × ℝ) (hb : 0 ≤ bound) :
    vlen (clampVec bound v) ≤ bound := by
  unfold clampVec
  split_ifs with h
  · rw [vlen_scale, vlen_vdiv, abs_of_nonneg hb,
      abs_of_nonneg (vlen_nonneg v)]
    have hpos : 0 < vlen v := lt_of_le_of_lt hb h
    rw [div_self (ne_of_gt hpos), mul_one]
  · exact not_lt.1 h

/-! ### Per-behavior speed/force bounds -/

theorem seekCore_bounds (target : ℝ × ℝ) (dt : ℝ) (m : Move) (t : Transform)
    (hS : 0 ≤ m.maxSpeed) (hF : 0 ≤ m.maxForce) :
    ((seekCore target dt m t).move.velocity = m.velocity ∨
      vlen (seekCore target dt m t).move.velocity ≤ m.maxSpeed) ∧
    (∀ f, (seekCore target dt m t).applied = some f → vlen f ≤ m.maxForce) := by
  simp only [seekCore]
  split_ifs with h1 h2
  · exact ⟨Or.inl rfl, fun f hf => by cases hf⟩
  · refine ⟨Or.inr (clampVec_le _ _ hS), ?_⟩
    intro f hf
    obtain rfl := Option.some.inj hf
    exact clampVec_le _ _ hF
  · refine ⟨Or.inr (clampVec_le _ _ hS), ?_⟩
    intro f hf
    obtain rfl := Option.some.inj hf
    exact clampVec_le _ _ hF

theorem fleeCore_bounds (radius : ℝ) (target : ℝ × ℝ) (dt : ℝ) (m : Move)
    (t : Transform) (hS : 0 ≤ m.maxSpeed) (hF : 0 ≤ m.maxForce) :
    ((fleeCore radius target dt m t).move.velocity = m.velocity ∨
      vlen (fleeCore radius target dt m t).move.velocity ≤ m.maxSpeed) ∧
    (∀ f, (fleeCore radius target dt m t).applied = some f →
      vlen f ≤ m.maxForce) := by
  simp only [fleeCore]
  split_ifs with h1 h2 h3 h4
  · exact ⟨Or.inl rfl, fun f hf => by cases hf⟩
  · refine ⟨Or.inr (clampVec_le _ _ hS), ?_⟩
    intro f hf
    obtain rfl := Option.some.inj hf
    rw [vlen_zero]
    exact hF
  · refine ⟨Or.inr (clampVec_le _ _ hS), ?_⟩
    intro f hf
    obtain rfl := Option.some.inj hf
    rw [vlen_zero]
    exact hF
  · refine ⟨Or.inr (clampVec_le _ _ hS), ?_⟩
    intro f hf
    obtain rfl := Option.some.inj hf
    exact clampVec_le _ _ hF
  · refine ⟨Or.inr (clampVec_le _ _ hS), ?_⟩
    intro f hf
    obtain rfl := Option.some.inj hf
    exact clampVec_le _ _ hF

theorem arriveStep_bounds (a : Arrive) (target : ℝ × ℝ) (dt : ℝ) (m : Move)
    (t : Transform) (hS : 0 ≤ m.maxSpeed) (hF : 0 ≤ m.maxForce) :
    ((arriveStep a target dt m t).move.velocity = m.velocity ∨
      vlen (arriveStep a target dt m t).move.velocity ≤ m.maxSpeed) ∧
    (∀ f, (arriveStep a target dt m t).applied = some f →
      vlen f ≤ m.maxForce) := by
  simp only [arriveStep]
  split_ifs with h1 h2 h3
  all_goals
    refine ⟨Or.inr (clampVec_le _ _ hS), ?_⟩
    intro f hf
    obtain rfl := Option.some.inj hf
    exact clampVec_le _ _ hF

theorem pursuitStep_bounds (p : Pursuit)
    (lookup : Nat → Option (Transform × Move)) (dt : ℝ) (m : Move)
    (t : Transform) (hS : 0 ≤ m.maxSpeed) (hF : 0 ≤ m.maxForce) :
    ((pursuitStep p lookup dt m t).move.velocity = m.velocity ∨
      vlen (pursuitStep p lookup dt m t).move.velocity ≤ m.maxSpeed) ∧
    (∀ f, (pursuitStep p lookup dt m t).applied = some f →
      vlen f ≤ m.maxForce) := by
  unfold pursuitStep
  by_cases h1 : ECS.Entity.IsValid p.evaderId
  · rw [if_neg (not_not_intro h1)]
    cases hl : lookup p.evaderId with
    | none => exact ⟨Or.inl rfl, fun f hf => by cases hf⟩
    | some em =>
        obtain ⟨et, emv⟩ := em
        exact seekCore_bounds _ dt m t hS hF
  · rw [if_pos h1]
    exact ⟨Or.inl rfl, fun f hf => by cases hf⟩

theorem evadeStep_bounds (e : Evade)
    (lookup : Nat → Option (Transform × Move)) (dt : ℝ) (m : Move)
    (t : Transform) (hS : 0 ≤ m.maxSpeed) (hF : 0 ≤ m.maxForce) :
    ((evadeStep e lookup dt m t).move.velocity = m.velocity ∨
      vlen (evadeStep e lookup dt m t).move.velocity ≤ m.maxSpeed) ∧
    (∀ f, (evadeStep e lookup dt m t).applied = some f →
      vlen f ≤ m.maxForce) := by
  unfold evadeStep
  by_cases h1 : ECS.Entity.IsValid e.pursuerId
  · rw [if_neg (not_not_intro h1)]
    cases hl : lookup e.pursuerId with
    | none => exact ⟨Or.inl rfl, fun f hf => by cases hf⟩
    | some pm =>
        obtain ⟨pt2, pm2⟩ := pm
        exact fleeCore_bounds _ _ dt m t hS hF
  · rw [if_pos h1]
    exact ⟨Or.inl rfl, fun f hf => by cases hf⟩

theorem wanderStep_bounds (w : Wander) (r1 r2 : ℝ) (dt : ℝ) (m : Move)
    (t : Transform) (tt ft : Transform) (fc : Circle)
    (hS : 0 ≤ m.maxSpeed) (hF : 0 ≤ m.maxForce) :
    ((wanderStep w r1 r2 dt m t tt ft fc).move.velocity = m.velocity ∨
      vlen (wanderStep w r1 r2 dt m t tt ft fc).move.velocity ≤ m.maxSpeed) ∧
    (∀ f, (wanderStep w r1 r2 dt m t tt ft fc).applied = some f →
      vlen f ≤ m.maxForce) := by
  have hcore := seekCore_bounds
    (ToWorld (vscale w.radius (vnormalize (w.point +
      (r1 * w.jitter * dt, r2 * w.jitter * dt))) + (w.distance, 0))
      t.position t.rotation (1, 1)) dt m t hS hF
  simp only [wanderStep]
  split_ifs with h1
  · exact hcore
  · exact hcore

end steering

end

noncomputable section

namespace steering

/-! ### Claim C1: speed and force ceilings -/

/-- **C1 counterexample**.  A matched entity that the near-zero-distance
guard skips (`continue`) keeps its previous velocity untouched, so if that
velocity already exceeded `maxSpeed` the post-step speed still does:
an entity sitting exactly on the Seek target with velocity `(200, 0)` and
`maxSpeed = 150` leaves the step with speed `200 > 150`. -/
theorem C1_counterexample_skip_keeps_excess_velocity :
    (seekCore (0, 0) 0.016 (Move.mk (200, 0) 1 150 85)
      (Transform.mk (0, 0) (1, 0) (1, 1))).move.velocity = (200, 0) ∧
    (Move.mk ((200 : ℝ), (0 : ℝ)) 1 150 85).maxSpeed <
      vlen (seekCore (0, 0) 0.016 (Move.mk (200, 0) 1 150 85)
        (Transform.mk (0, 0) (1, 0) (1, 1))).move.velocity := by
  have hskip : seekCore ((0 : ℝ), (0 : ℝ)) 0.016 (Move.mk (200, 0) 1 150 85)
      (Transform.mk (0, 0) (1, 0) (1, 1)) =
      ⟨Move.mk (200, 0) 1 150 85, Transform.mk (0, 0) (1, 0) (1, 1),
       none, false⟩ := by
    unfold seekCore
    norm_num [vlen, epsF, Real.sqrt_zero]
  rw [hskip]
  refine ⟨rfl, ?_⟩
  have h200 : vlen ((200 : ℝ), (0 : ℝ)) = 200 :=
    vlen_eq_of_sq _ 200 (by norm_num) (by norm_num)
  show (150 : ℝ) < vlen ((200 : ℝ), (0 : ℝ))
  rw [h200]
  norm_num

/-- **C1** (corrected).  For each of the six behaviors, one per-entity step
either leaves the velocity untouched (the entity was skipped by a
degenerate-geometry or invalid-reference guard, or no integration ran) or
produces a velocity of magnitude at most `maxSpeed`; and every steering
force the step actually applies has magnitude at most `maxForce` — given
the ceilings are nonnegative. -/
theorem C1_speed_and_force_ceilings :
    (∀ (target : ℝ × ℝ) (dt : ℝ) (m : Move) (t : Transform),
      0 ≤ m.maxSpeed → 0 ≤ m.maxForce →
      ((seekCore target dt m t).move.velocity = m.velocity ∨
        vlen (seekCore target dt m t).move.velocity ≤ m.maxSpeed) ∧
      (∀ f, (seekCore target dt m t).applied = some f → vlen f ≤ m.maxForce)) ∧
    (∀ (radius : ℝ) (target : ℝ × ℝ) (dt : ℝ) (m : Move) (t : Transform),
      0 ≤ m.maxSpeed → 0 ≤ m.maxForce →
      ((fleeCore radius target dt m t).move.velocity = m.velocity ∨
        vlen (fleeCore radius target dt m t).move.velocity ≤ m.maxSpeed) ∧
      (∀ f, (fleeCore radius target dt m t).applied = some f →
        vlen f ≤ m.maxForce)) ∧
    (∀ (a : Arrive) (target : ℝ × ℝ) (dt : ℝ) (m : Move) (t : Transform),
      0 ≤ m.maxSpeed → 0 ≤ m.maxForce →
      ((arriveStep a target dt m t).move.velocity = m.velocity ∨
        vlen (arriveStep a target dt m t).move.velocity ≤ m.maxSpeed) ∧
      (∀ f, (arriveStep a target dt m t).applied = some f →
        vlen f ≤ m.maxForce)) ∧
    (∀ (p : Pursuit) (lookup : Nat → Option (Transform × Move)) (dt : ℝ)
        (m : Move) (t : Transform),
      0 ≤ m.maxSpeed → 0 ≤ m.maxForce →
      ((pursuitStep p lookup dt m t).move.velocity = m.velocity ∨
        vlen (pursuitStep p lookup dt m t).move.velocity ≤ m.maxSpeed) ∧
      (∀ f, (pursuitStep p lookup dt m t).applied = some f →
        vlen f ≤ m.maxForce)) ∧
    (∀ (e : Evade) (lookup : Nat → Option (Transform × Move)) (dt : ℝ)
        (m : Move) (t : Transform),
      0 ≤ m.maxSpeed → 0 ≤ m.maxForce →
      ((evadeStep e lookup dt m t).move.velocity = m.velocity ∨
        vlen (evadeStep e lookup dt m t).move.velocity ≤ m.maxSpeed) ∧
      (∀ f, (evadeStep e lookup dt m t).applied = some f →
        vlen f ≤ m.maxForce)) ∧
    (∀ (w : Wander) (r1 r2 dt : ℝ) (m : Move) (t tt ft : Transform)
        (fc : Circle),
      0 ≤ m.maxSpeed → 0 ≤ m.maxForce →
      ((wanderStep w r1 r2 dt m t tt ft fc).move.velocity = m.velocity ∨
        vlen (wanderStep w r1 r2 dt m t tt ft fc).move.velocity ≤ m.maxSpeed) ∧
      (∀ f, (wanderStep w r1 r2 dt m t tt ft fc).applied = some f →
        vlen f ≤ m.maxForce)) :=
  ⟨fun target dt m t hS hF => seekCore_bounds target dt m t hS hF,
   fun radius target dt m t hS hF => fleeCore_bounds radius target dt m t hS hF,
   fun a target dt m t hS hF => arriveStep_bounds a target dt m t hS hF,
   fun p lookup dt m t hS hF => pursuitStep_bounds p lookup dt m t hS hF,
   fun e lookup dt m t hS hF => evadeStep_bounds e lookup dt m t hS hF,
   fun w r1 r2 dt m t tt ft fc hS hF =>
     wanderStep_bounds w r1 r2 dt m t tt ft fc hS hF⟩

/-- Witness for C1: the Seek conjunct applied at the spec's concrete
scenario (maxSpeed 150, maxForce 85, both nonnegative). -/
theorem C1_witness :
    (0 : ℝ) ≤ (Move.mk ((0 : ℝ), (0 : ℝ)) 1 150 85).maxSpeed ∧
    (0 : ℝ) ≤ (Move.mk ((0 : ℝ), (0 : ℝ)) 1 150 85).maxForce ∧
    (((seekCore (100, 0) 0.016 (Move.mk (0, 0) 1 150 85)
        (Transform.mk (0, 0) (1, 0) (1, 1))).move.velocity
          = (Move.mk ((0 : ℝ), (0 : ℝ)) 1 150 85).velocity ∨
      vlen (seekCore (100, 0) 0.016 (Move.mk (0, 0) 1 150 85)
        (Transform.mk (0, 0) (1, 0) (1, 1))).move.velocity
          ≤ (Move.mk ((0 : ℝ), (0 : ℝ)) 1 150 85).maxSpeed) ∧
     (∀ f, (seekCore (100, 0) 0.016 (Move.mk (0, 0) 1 150 85)
        (Transform.mk (0, 0) (1, 0) (1, 1))).applied = some f →
          vlen f ≤ (Move.mk ((0 : ℝ), (0 : ℝ)) 1 150 85).maxForce)) :=
  ⟨by norm_num, by norm_num,
   C1_speed_and_force_ceilings.1 (100, 0) 0.016 (Move.mk (0, 0) 1 150 85)
     (Transform.mk (0, 0) (1, 0) (1, 1)) (by norm_num) (by norm_num)⟩

/-! ### Claim C9: the concrete Seek scenario -/

/-- **C9** (confirmed).  One Seek step on an entity at `(0,0)`, heading
`(1,0)`, mass 1, `maxSpeed` 150, `maxForce` 85, velocity `(0,0)`, toward
target `(100,0)` with `dt = 0.016`: the desired velocity `(150,0)` is
clamped to the applied force `(85,0)`, the integrated velocity is
`(1.36, 0)` (the speed clamp does not fire), the position becomes
`(0.02176, 0)` and the heading `(1, 0)`; the batch-aborting near-stop
return does not fire. -/
theorem C9_seek_concrete_scenario :
    seekCore (100, 0) 0.016 (Move.mk (0, 0) 1 150 85)
      (Transform.mk (0, 0) (1, 0) (1, 1)) =
    ⟨Move.mk (1.36, 0) 1 150 85, Transform.mk (0.02176, 0) (1, 0) (1, 1),
     some (85, 0), false⟩ := by
  have s10000 : Real.sqrt (10000 : ℝ) = 100 := by
    rw [show (10000 : ℝ) = 100 ^ 2 by norm_num,
      Real.sqrt_sq (by norm_num : (0 : ℝ) ≤ 100)]
  have s22500 : Real.sqrt (22500 : ℝ) = 150 := by
    rw [show (22500 : ℝ) = 150 ^ 2 by norm_num,
      Real.sqrt_sq (by norm_num : (0 : ℝ) ≤ 150)]
  have s1156 : Real.sqrt (1156 : ℝ) = 34 := by
    rw [show (1156 : ℝ) = 34 ^ 2 by norm_num,
      Real.sqrt_sq (by norm_num : (0 : ℝ) ≤ 34)]
  have s625 : Real.sqrt (625 : ℝ) = 25 := by
    rw [show (625 : ℝ) = 25 ^ 2 by norm_num,
      Real.sqrt_sq (by norm_num : (0 : ℝ) ≤ 25)]
  unfold seekCore clampVec vnormalize
  norm_num [vlen, vdiv, vscale, epsF, s10000, s22500, s1156, s625]

end steering

end

noncomputable section

namespace steering

/-! ### Claim C3: the near-stop `return` aborts the whole batch -/

/-- **C3** (code_bug).  With two matched Seek entities and `dt = 0.5`, the
first entity integrates to exactly zero velocity, so the near-stop guard
fires.  The C++ `return` exits `Seek` itself, so the second entity is left
completely untouched in the same call — even though processing it would
change its velocity (the spec, sections 5 and 9, requires the early exit
to affect only the current entity). -/
theorem C3_near_stop_aborts_remaining_entities :
    seekBatch (100, 0) 0.5
      [(Move.mk (-1, 0) 1 1 10, Transform.mk (0, 0) (1, 0) (1, 1)),
       (Move.mk (0, 0) 1 1 10, Transform.mk (50, 0) (1, 0) (1, 1))] =
      [(Move.mk (0, 0) 1 1 10, Transform.mk (0, 0) (1, 0) (1, 1)),
       (Move.mk (0, 0) 1 1 10, Transform.mk (50, 0) (1, 0) (1, 1))] ∧
    (seekCore (100, 0) 0.5 (Move.mk (0, 0) 1 1 10)
        (Transform.mk (50, 0) (1, 0) (1, 1))).move.velocity ≠
      (Move.mk ((0 : ℝ), (0 : ℝ)) 1 1 10).velocity := by
  have s10000 : Real.sqrt (10000 : ℝ) = 100 := by
    rw [show (10000 : ℝ) = 100 ^ 2 by norm_num,
      Real.sqrt_sq (by norm_num : (0 : ℝ) ≤ 100)]
  have s2500 : Real.sqrt (2500 : ℝ) = 50 := by
    rw [show (2500 : ℝ) = 50 ^ 2 by norm_num,
      Real.sqrt_sq (by norm_num : (0 : ℝ) ≤ 50)]
  have s4 : Real.sqrt (4 : ℝ) = 2 := by
    rw [show (4 : ℝ) = 2 ^ 2 by norm_num,
      Real.sqrt_sq (by norm_num : (0 : ℝ) ≤ 2)]
  have h1 : seekCore ((100 : ℝ), (0 : ℝ)) 0.5 (Move.mk (-1, 0) 1 1 10)
      (Transform.mk (0, 0) (1, 0) (1, 1)) =
      ⟨Move.mk (0, 0) 1 1 10, Transform.mk (0, 0) (1, 0) (1, 1),
       some (2, 0), true⟩ := by
    unfold seekCore clampVec vnormalize
    norm_num [vlen, vdiv, vscale, epsF, s10000, s4, Real.sqrt_zero]
  have h2 : seekCore ((100 : ℝ), (0 : ℝ)) 0.5 (Move.mk (0, 0) 1 1 10)
      (Transform.mk (50, 0) (1, 0) (1, 1)) =
      ⟨Move.mk (0.5, 0) 1 1 10, Transform.mk (50.25, 0) (1, 0) (1, 1),
       some (1, 0), false⟩ := by
    have s14 : Real.sqrt ((1 : ℝ) / 4) = 1 / 2 := by
      rw [show ((1 : ℝ) / 4) = (1 / 2) ^ 2 by norm_num,
        Real.sqrt_sq (by norm_num : (0 : ℝ) ≤ 1 / 2)]
    unfold seekCore clampVec vnormalize
    norm_num [vlen, vdiv, vscale, epsF, s2500, Real.sqrt_one, s14]
  constructor
  · rw [seekBatch, h1]
    norm_num
  · rw [h2]
    intro hcontra
    have hx : (0.5 : ℝ) = 0 := congrArg Prod.fst hcontra
    norm_num at hx

end steering

end

noncomputable section

namespace steering

/-! ### Claim C8: the wander point sits on the circle boundary -/

theorem vlen_pos_of_ne_zero (v : ℝ × ℝ) (h : v ≠ 0) : 0 < vlen v := by
  unfold vlen
  apply Real.sqrt_pos.2
  have hne : v.1 ≠ 0 ∨ v.2 ≠ 0 := by
    by_contra hc
    push_neg at hc
    exact h (Prod.ext_iff.2 ⟨hc.1, hc.2⟩)
  rcases hne with h1 | h1
  · nlinarith [mul_self_pos.2 h1, mul_self_nonneg v.2]
  · nlinarith [mul_self_nonneg v.1, mul_self_pos.2 h1]

theorem vlen_vnormalize (v : ℝ × ℝ) (h : v ≠ 0) : vlen (vnormalize v) = 1 := by
  unfold vnormalize
  rw [vlen_vdiv, abs_of_nonneg (vlen_nonneg v),
    div_self (ne_of_gt (vlen_pos_of_ne_zero v h))]

/-- The wander step always stores
`radius • normalize (point + jitter delta)` back into the component,
whatever the guards later decide. -/
theorem wanderStep_point (w : Wander) (r1 r2 dt : ℝ) (m : Move)
    (t tt ft : Transform) (fc : Circle) :
    (wanderStep w r1 r2 dt m t tt ft fc).wander.point =
      vscale w.radius (vnormalize
        (w.point + (r1 * w.jitter * dt, r2 * w.jitter * dt))) := by
  simp only [wanderStep]
  split_ifs <;> rfl

/-- **C8 counterexample**.  The claim quantifies over any prior point and
any jitter draws.  When the perturbation cancels the point exactly —
prior point `(1, 0)`, draw `(-1, 0)` with `jitter ⋅ dt = 1` —
`glm::normalize` divides by zero (NaN in C++, the zero vector in this
exact model), and the stored point's magnitude is 0, not the radius 25. -/
theorem C8_counterexample_zero_perturbation :
    vlen ((wanderStep (Wander.mk (1, 0) 25 100 5) (-1) 0 0.2
      (Move.mk (0, 0) 1 150 85) (Transform.mk (0, 0) (1, 0) (1, 1))
      (Transform.mk (0, 0) (1, 0) (1, 1)) (Transform.mk (0, 0) (1, 0) (1, 1))
      (Circle.mk 25)).wander.point) = 0 ∧
    (Wander.mk ((1 : ℝ), (0 : ℝ)) 25 100 5).radius ≠
      vlen ((wanderStep (Wander.mk (1, 0) 25 100 5) (-1) 0 0.2
        (Move.mk (0, 0) 1 150 85) (Transform.mk (0, 0) (1, 0) (1, 1))
        (Transform.mk (0, 0) (1, 0) (1, 1)) (Transform.mk (0, 0) (1, 0) (1, 1))
        (Circle.mk 25)).wander.point) := by
  have hpt : (wanderStep (Wander.mk (1, 0) 25 100 5) (-1) 0 0.2
      (Move.mk (0, 0) 1 150 85) (Transform.mk (0, 0) (1, 0) (1, 1))
      (Transform.mk (0, 0) (1, 0) (1, 1)) (Transform.mk (0, 0) (1, 0) (1, 1))
      (Circle.mk 25)).wander.point = ((0 : ℝ), (0 : ℝ)) := by
    rw [wanderStep_point]
    norm_num [vnormalize, vdiv, vlen, vscale, Real.sqrt_zero]
  rw [hpt, vlen_zero]
  norm_num

/-- **C8** (corrected).  Provided the perturbed point is nonzero (otherwise
the unguarded `glm::normalize` divides by zero) and the wander radius is
nonnegative, after every wander step the persistent circle point's
magnitude equals the radius exactly, for any prior point and any draws. -/
theorem C8_wander_point_magnitude_eq_radius (w : Wander) (r1 r2 dt : ℝ)
    (m : Move) (t tt ft : Transform) (fc : Circle)
    (hnz : w.point + (r1 * w.jitter * dt, r2 * w.jitter * dt) ≠ 0)
    (hr : 0 ≤ w.radius) :
    vlen (wanderStep w r1 r2 dt m t tt ft fc).wander.point = w.radius := by
  rw [wanderStep_point, vlen_scale, vlen_vnormalize _ hnz, mul_one,
    abs_of_nonneg hr]

/-- Witness for C8: prior point `(3, 4)`, zero draws, radius 25. -/
theorem C8_witness :
    ((Wander.mk ((3 : ℝ), (4 : ℝ)) 25 100 5).point +
        ((0 : ℝ) * (Wander.mk ((3 : ℝ), (4 : ℝ)) 25 100 5).jitter * 0.016,
         (0 : ℝ) * (Wander.mk ((3 : ℝ), (4 : ℝ)) 25 100 5).jitter * 0.016) ≠ 0) ∧
    (0 : ℝ) ≤ (Wander.mk ((3 : ℝ), (4 : ℝ)) 25 100 5).radius ∧
    vlen (wanderStep (Wander.mk (3, 4) 25 100 5) 0 0 0.016
      (Move.mk (0, 0) 1 150 85) (Transform.mk (0, 0) (1, 0) (1, 1))
      (Transform.mk (0, 0) (1, 0) (1, 1)) (Transform.mk (0, 0) (1, 0) (1, 1))
      (Circle.mk 25)).wander.point
      = (Wander.mk ((3 : ℝ), (4 : ℝ)) 25 100 5).radius := by
  have hnz : (Wander.mk ((3 : ℝ), (4 : ℝ)) 25 100 5).point +
      ((0 : ℝ) * (Wander.mk ((3 : ℝ), (4 : ℝ)) 25 100 5).jitter * 0.016,
       (0 : ℝ) * (Wander.mk ((3 : ℝ), (4 : ℝ)) 25 100 5).jitter * 0.016) ≠ 0 := by
    norm_num [Prod.ext_iff]
  exact ⟨hnz, by norm_num,
    C8_wander_point_magnitude_eq_radius (Wander.mk (3, 4) 25 100 5) 0 0 0.016
      (Move.mk (0, 0) 1 150 85) (Transform.mk (0, 0) (1, 0) (1, 1))
      (Transform.mk (0, 0) (1, 0) (1, 1)) (Transform.mk (0, 0) (1, 0) (1, 1))
      (Circle.mk 25) hnz (by norm_num)⟩

end steering

end

noncomputable section

namespace steering

/-! ### Claim C10: determinism of the five targeted behaviors; Wander
draws from the hidden random engine -/

/-- **C10** (confirmed).  Seek, Flee, Arrive, Pursuit and Evade read
nothing but their arguments (target, scene view, `dt`, matched entities):
two runs from equal inputs produce equal stores.  Wander is rightly
excluded: it consumes the global `RandomClamped` engine, and the final
conjunct exhibits one store state on which two different draw streams
yield different results, so its outcome is not a function of the store
and `dt` alone. -/
theorem C10_behaviors_deterministic_except_wander :
    (∀ (t₁ t₂ : ℝ × ℝ) (dt₁ dt₂ : ℝ) (es₁ es₂ : List (Move × Transform)),
      t₁ = t₂ → dt₁ = dt₂ → es₁ = es₂ →
      seekBatch t₁ dt₁ es₁ = seekBatch t₂ dt₂ es₂) ∧
    (∀ (t₁ t₂ : ℝ × ℝ) (dt₁ dt₂ : ℝ) (es₁ es₂ : List (Flee × Move × Transform)),
      t₁ = t₂ → dt₁ = dt₂ → es₁ = es₂ →
      fleeBatch t₁ dt₁ es₁ = fleeBatch t₂ dt₂ es₂) ∧
    (∀ (t₁ t₂ : ℝ × ℝ) (dt₁ dt₂ : ℝ)
        (es₁ es₂ : List (Arrive × Move × Transform)),
      t₁ = t₂ → dt₁ = dt₂ → es₁ = es₂ →
      arriveBatch t₁ dt₁ es₁ = arriveBatch t₂ dt₂ es₂) ∧
    (∀ (lk₁ lk₂ : Nat → Option (Transform × Move)) (dt₁ dt₂ : ℝ)
        (es₁ es₂ : List (Pursuit × Move × Transform)),
      lk₁ = lk₂ → dt₁ = dt₂ → es₁ = es₂ →
      pursuitBatch lk₁ dt₁ es₁ = pursuitBatch lk₂ dt₂ es₂) ∧
    (∀ (lk₁ lk₂ : Nat → Option (Transform × Move)) (dt₁ dt₂ : ℝ)
        (es₁ es₂ : List (Evade × Move × Transform)),
      lk₁ = lk₂ → dt₁ = dt₂ → es₁ = es₂ →
      evadeBatch lk₁ dt₁ es₁ = evadeBatch lk₂ dt₂ es₂) ∧
    (wanderBatch 0.2
        [(Wander.mk (3, 4) 5 100 5, Move.mk (0, 0) 1 150 85,
          Transform.mk (0, 0) (1, 0) (1, 1), Transform.mk (0, 0) (1, 0) (1, 1),
          Transform.mk (0, 0) (1, 0) (1, 1), Circle.mk 25)] [0, 0] ≠
      wanderBatch 0.2
        [(Wander.mk (3, 4) 5 100 5, Move.mk (0, 0) 1 150 85,
          Transform.mk (0, 0) (1, 0) (1, 1), Transform.mk (0, 0) (1, 0) (1, 1),
          Transform.mk (0, 0) (1, 0) (1, 1), Circle.mk 25)] [1, -1]) := by
  have s25 : Real.sqrt (25 : ℝ) = 5 := by
    rw [show (25 : ℝ) = 5 ^ 2 by norm_num,
      Real.sqrt_sq (by norm_num : (0 : ℝ) ≤ 5)]
  refine ⟨?_, ?_, ?_, ?_, ?_, ?_⟩
  · intro t₁ t₂ dt₁ dt₂ es₁ es₂ h1 h2 h3
    rw [h1, h2, h3]
  · intro t₁ t₂ dt₁ dt₂ es₁ es₂ h1 h2 h3
    rw [h1, h2, h3]
  · intro t₁ t₂ dt₁ dt₂ es₁ es₂ h1 h2 h3
    rw [h1, h2, h3]
  · intro lk₁ lk₂ dt₁ dt₂ es₁ es₂ h1 h2 h3
    rw [h1, h2, h3]
  · intro lk₁ lk₂ dt₁ dt₂ es₁ es₂ h1 h2 h3
    rw [h1, h2, h3]
  · intro hcontra
    have hmap := congrArg
      (fun x : List WEntity × List ℝ => x.1.map (fun e => e.1.point)) hcontra
    have h1 : (wanderBatch 0.2
        [(Wander.mk (3, 4) 5 100 5, Move.mk (0, 0) 1 150 85,
          Transform.mk (0, 0) (1, 0) (1, 1), Transform.mk (0, 0) (1, 0) (1, 1),
          Transform.mk (0, 0) (1, 0) (1, 1), Circle.mk 25)]
        [0, 0]).1.map (fun e => e.1.point) = [((3 : ℝ), (4 : ℝ))] := by
      simp only [wanderBatch, nextRand]
      split_ifs <;>
        · simp only [List.map_cons, List.map_nil, wanderStep_point]
          norm_num [vnormalize, vdiv, vscale, vlen, s25]
    have h2 : (wanderBatch 0.2
        [(Wander.mk (3, 4) 5 100 5, Move.mk (0, 0) 1 150 85,
          Transform.mk (0, 0) (1, 0) (1, 1), Transform.mk (0, 0) (1, 0) (1, 1),
          Transform.mk (0, 0) (1, 0) (1, 1), Circle.mk 25)]
        [1, -1]).1.map (fun e => e.1.point) = [((4 : ℝ), (3 : ℝ))] := by
      simp only [wanderBatch, nextRand]
      split_ifs <;>
        · simp only [List.map_cons, List.map_nil, wanderStep_point]
          norm_num [vnormalize, vdiv, vscale, vlen, s25]
    dsimp only at hmap
    rw [h1, h2] at hmap
    have hx : (3 : ℝ) = 4 := congrArg (fun l : List (ℝ × ℝ) =>
      (l.headD (0, 0)).1) hmap
    norm_num at hx

/-- Witness for C10: the Seek conjunct applied at a pair of (trivially)
equal inputs. -/
theorem C10_witness :
    (((100 : ℝ), (0 : ℝ)) = ((100 : ℝ), (0 : ℝ))) ∧
    ((0.016 : ℝ) = (0.016 : ℝ)) ∧
    (([(Move.mk ((0 : ℝ), (0 : ℝ)) 1 150 85,
        Transform.mk (0, 0) (1, 0) (1, 1))] :
        List (Move × Transform)) =
      [(Move.mk ((0 : ℝ), (0 : ℝ)) 1 150 85,
        Transform.mk (0, 0) (1, 0) (1, 1))]) ∧
    seekBatch (100, 0) 0.016
      [(Move.mk (0, 0) 1 150 85, Transform.mk (0, 0) (1, 0) (1, 1))] =
    seekBatch (100, 0) 0.016
      [(Move.mk (0, 0) 1 150 85, Transform.mk (0, 0) (1, 0) (1, 1))] :=
  ⟨rfl, rfl, rfl,
   C10_behaviors_deterministic_except_wander.1 (100, 0) (100, 0) 0.016 0.016
     [(Move.mk (0, 0) 1 150 85, Transform.mk (0, 0) (1, 0) (1, 1))]
     [(Move.mk (0, 0) 1 150 85, Transform.mk (0, 0) (1, 0) (1, 1))]
     rfl rfl rfl⟩

end steering

end
